import Mathlib

/-! CodeMan community front end: SSO helper, navigation guard, auth store.

A shallow embedding of the four JavaScript sources

* `public/sdk/codeman-sso.js` (the `CodeManSSO` helper),
* `src/router/index.js` (route table and global navigation guard),
* `src/main.js` (axios request interceptor),
* `src/store.js` (auth state mirrored in `localStorage`),

followed by theorems about them.  The authorization server that the helper
talks to is not among the sources; the part of it that the single use of
authorization codes rests on is modelled from the specification.

JavaScript strings are sequences of UTF-16 code units; they are embedded as
lists of natural numbers, so that unpaired surrogates stay representable.
-/

namespace CodeMan

/-! ## JavaScript strings -/

/-- A JavaScript string: its UTF-16 code units, in order. -/
abbrev JSString := List Nat

/-- UTF-16 code units of one Unicode code point. -/
def utf16Units (cp : Nat) : List Nat :=
  if cp < 65536 then [cp]
  else [55296 + (cp - 65536) / 1024, 56320 + (cp - 65536) % 1024]

/-- UTF-16 code units of a list of code points. -/
def utf16Encode : List Nat → JSString
  | [] => []
  | cp :: rest => utf16Units cp ++ utf16Encode rest

/-- The JavaScript string written as the given literal. -/
def js (s : String) : JSString :=
  utf16Encode (s.toList.map Char.toNat)

/-- Truthiness of a string value: every string but the empty one. -/
def JSString.truthy (s : JSString) : Bool := !s.isEmpty

/-- Truthiness of a value that is `null` or a string. -/
def truthyOpt : Option JSString → Bool
  | none => false
  | some s => s.truthy

/-! ## JavaScript values -/

/-- The JavaScript values of the embedding: `undefined`, `null`, booleans,
numbers, strings, arrays and plain objects.  The numbers are the integers of
magnitude below 2^53, given by sign and magnitude, so that negative zero is
among them; every one of them is a JavaScript number, written in decimal by
the string conversion.  A plain object is as `JSON.parse` makes it: its own
data properties in insertion order, `Object.prototype` as its prototype. -/
inductive JSVal where
  | undefined
  | null
  | bool (b : Bool)
  | num (negative : Bool) (magnitude : Fin 9007199254740992)
  | str (s : JSString)
  | arr (items : List JSVal)
  | obj (fields : List (JSString × JSVal))

/-- Truthiness (`ToBoolean`). -/
def JSVal.truthy : JSVal → Bool
  | .undefined => false
  | .null => false
  | .bool b => b
  | .num _ magnitude => magnitude.val != 0
  | .str s => s.truthy
  | .arr _ => true
  | .obj _ => true

/-- String conversion of a number (`Number::toString`): decimal digits, a
minus sign before them for a negative number other than zero. -/
def numberToString (negative : Bool) (magnitude : Nat) : JSString :=
  (if negative && magnitude != 0 then js "-" else []) ++ js (toString magnitude)

/-- String conversion of a plain object: `Object.prototype.toString` gives
"[object Object]"; an own property named 'toString' hides that method, and as
no value of the embedding is callable the conversion then throws a
`TypeError`, which is `none`. -/
def objectToString (fields : List (JSString × JSVal)) : Option JSString :=
  if (fields.map (fun kv => kv.1)).contains (js "toString") then none
  else some (js "[object Object]")

mutual
/-- String conversion (`ToString`), as applied by template literals and by
`Storage.setItem`; `none` when it throws a `TypeError`. -/
def JSVal.toJSString : JSVal → Option JSString
  | .undefined => some (js "undefined")
  | .null => some (js "null")
  | .bool b => some (if b then js "true" else js "false")
  | .num negative magnitude => some (numberToString negative magnitude.val)
  | .str s => some s
  | .arr items => JSVal.joinItems items
  | .obj fields => objectToString fields
/-- The comma-separated items of an array (`Array.prototype.join`): `null` and
`undefined` items contribute the empty string. -/
def JSVal.joinItems : List JSVal → Option JSString
  | [] => some []
  | [v] => JSVal.itemString v
  | v :: w :: rest =>
    match JSVal.itemString v, JSVal.joinItems (w :: rest) with
    | some first, some others => some (first ++ js "," ++ others)
    | _, _ => none
/-- One item of an array join. -/
def JSVal.itemString : JSVal → Option JSString
  | .undefined => some []
  | .null => some []
  | .bool b => some (if b then js "true" else js "false")
  | .num negative magnitude => some (numberToString negative magnitude.val)
  | .str s => some s
  | .arr items => JSVal.joinItems items
  | .obj fields => objectToString fields
end

/-- Whether a value is a plain object. -/
def JSVal.isObject : JSVal → Bool
  | .obj _ => true
  | _ => false

/-- Property read `v.key` for a key that no prototype defines, as `id` and
`is_admin`, the two keys read in the sources: `none` when the read throws a
`TypeError` (on `null` and `undefined`), otherwise the value of the own
property, `undefined` when there is none. -/
def JSVal.getProp (v : JSVal) (key : JSString) : Option JSVal :=
  match v with
  | .undefined => none
  | .null => none
  | .obj fields => some ((fields.lookup key).getD .undefined)
  | _ => some .undefined

/-- Optional chaining `v?.key`. -/
def JSVal.getPropOpt (v : JSVal) (key : JSString) : JSVal :=
  (v.getProp key).getD .undefined

/-- The operator `a || b`. -/
def JSVal.or (a b : JSVal) : JSVal := if a.truthy then a else b

/-- The value returned by `Storage.getItem`: a string, or `null`. -/
def JSVal.ofItem : Option JSString → JSVal
  | none => .null
  | some s => .str s

/-- The two `JSON` functions the store uses.  `stringify v` is the string
that `setItem(key, JSON.stringify(v))` stores; `parse` is `none` when
`JSON.parse` throws. -/
structure JSONImpl where
  stringify : JSVal → JSString
  parse : JSString → Option JSVal

/-! ## Auth store (`src/store.js`) -/

/-- The content of `localStorage`: the item stored under each key, if any. -/
abbrev Storage := JSString → Option JSString

/-- Lookup of `localStorage.getItem(key)`. -/
def Storage.getItem (st : Storage) (key : JSString) : Option JSString := st key

/-- Effect of `localStorage.setItem(key, value)`. -/
def Storage.setItem (st : Storage) (key value : JSString) : Storage :=
  fun k => if k = key then some value else st k

/-- Effect of `localStorage.removeItem(key)`. -/
def Storage.removeItem (st : Storage) (key : JSString) : Storage :=
  fun k => if k = key then none else st k

/-- The reactive `authState` object; `isAdmin` is computed from `user`. -/
structure AuthState where
  user : JSVal
  token : JSVal
  isAuthenticated : Bool
  showLoginModal : Bool

/-- The computed property `isAdmin`: `authState.user?.is_admin || false`. -/
def AuthState.isAdmin (a : AuthState) : JSVal :=
  (a.user.getPropOpt (js "is_admin")).or (.bool false)

/-- The string handed to `JSON.parse` when the module is evaluated:
`localStorage.getItem('user') || 'null'`. -/
def userItemOrNull (st : Storage) : JSString :=
  match st.getItem (js "user") with
  | none => js "null"
  | some s => if s.truthy then s else js "null"

/-- The initial `authState`, computed from `localStorage` when the module is
evaluated; `none` when `JSON.parse` throws. -/
def initAuthState (J : JSONImpl) (st : Storage) : Option AuthState :=
  match J.parse (userItemOrNull st) with
  | none => none
  | some u =>
    some { user := u,
           token := JSVal.ofItem (st.getItem (js "token")),
           isAuthenticated := truthyOpt (st.getItem (js "token")),
           showLoginModal := false }

/-- The browser state the store works on. -/
structure App where
  localStorage : Storage
  authState : AuthState

/-- How a call ends: normally, or by throwing; either way with the state it
leaves behind. -/
inductive Completion where
  | normal (s : App)
  | throw (s : App)

/-- The state a call leaves behind. -/
def Completion.state : Completion → App
  | .normal s => s
  | .throw s => s

/-- The argument of `login`: `data.token` and `data.user`. -/
structure LoginData where
  token : JSVal
  user : JSVal

/-- The exported `login(data)`.  The string conversions that `setItem`
applies to `data.token` and to `data.user.id` may throw, like the read of
`data.user.id`; what was stored before stays stored. -/
def login (J : JSONImpl) (data : LoginData) (s : App) : Completion :=
  match data.token.toJSString with
  | none => .throw s
  | some tokenText =>
    let st1 := s.localStorage.setItem (js "token") tokenText
    let st2 := st1.setItem (js "user") (J.stringify data.user)
    match data.user.getProp (js "id") with
    | none => .throw { s with localStorage := st2 }
    | some id =>
      match id.toJSString with
      | none => .throw { s with localStorage := st2 }
      | some idText =>
        let st3 := st2.setItem (js "userId") idText
        .normal { localStorage := st3,
                  authState := { s.authState with
                    user := data.user, token := data.token, isAuthenticated := true } }

/-- The exported `logout()`. -/
def logout (s : App) : Completion :=
  let st1 := s.localStorage.removeItem (js "token")
  let st2 := st1.removeItem (js "user")
  let st3 := st2.removeItem (js "userId")
  .normal { localStorage := st3,
            authState := { s.authState with
              user := .null, token := .null, isAuthenticated := false } }

/-- A call of one of the two exported mutators. -/
inductive StoreCall where
  | login (data : LoginData)
  | logout

/-- State after one call. -/
def StoreCall.apply (J : JSONImpl) (c : StoreCall) (s : App) : App :=
  match c with
  | .login data => (CodeMan.login J data s).state
  | .logout => (CodeMan.logout s).state

/-- State after a sequence of calls, first call first. -/
def runCalls (J : JSONImpl) : List StoreCall → App → App
  | [], s => s
  | c :: rest, s => runCalls J rest (c.apply J s)

/-- Agreement of the in-memory state with what a reload would restore from
`localStorage`: `token` is the stored 'token' item (`null` when absent),
`user` is what `JSON.parse` makes of the stored 'user' item (of 'null' when
there is none), `isAuthenticated` is the truthiness of the stored 'token'
item. -/
def Agrees (J : JSONImpl) (s : App) : Prop :=
  s.authState.token = JSVal.ofItem (s.localStorage.getItem (js "token"))
  ∧ J.parse (userItemOrNull s.localStorage) = some s.authState.user
  ∧ s.authState.isAuthenticated = truthyOpt (s.localStorage.getItem (js "token"))

/-- A value is JSON-serialisable when `JSON.stringify` gives a text, never
empty, that `JSON.parse` reads back as the same value. -/
def Serialisable (J : JSONImpl) (v : JSVal) : Prop :=
  (J.stringify v).truthy = true ∧ J.parse (J.stringify v) = some v

/-- The calls the agreement is stated for: `logout()`, and `login(data)`
with `data.token` a non-empty string and `data.user` a JSON-serialisable
object whose `id` has a string conversion, as every string and every number
has. -/
def StoreCall.Admissible (J : JSONImpl) : StoreCall → Prop
  | .login data =>
    (∃ t : JSString, t ≠ [] ∧ data.token = .str t)
      ∧ data.user.isObject = true ∧ Serialisable J data.user
      ∧ ((data.user.getPropOpt (js "id")).toJSString).isSome = true
  | .logout => True

/-! ## Axios request interceptor (`src/main.js`) -/

/-- An axios request config: its `headers` object (property list) and all
its other fields, which the interceptor never reads. -/
structure AxiosConfig (α : Type) where
  headers : List (JSString × JSString)
  rest : α

/-- Property assignment `obj[key] = value` on a property list: an existing
property keeps its place and gets the new value, a new one goes last. -/
def setProp (fields : List (JSString × JSString)) (key value : JSString) :
    List (JSString × JSString) :=
  match fields with
  | [] => [(key, value)]
  | (k, v) :: rest =>
    if k = key then (k, value) :: rest else (k, v) :: setProp rest key value

/-- The fulfilment handler given to `axios.interceptors.request.use`: the
config it returns, `none` when the string conversion of the token in the
template literal throws. -/
def requestInterceptor {α : Type} (authState : AuthState) (config : AxiosConfig α) :
    Option (AxiosConfig α) :=
  if authState.token.truthy then
    match authState.token.toJSString with
    | none => none
    | some tokenText =>
      some { config with
        headers := setProp config.headers (js "Authorization") (js "Bearer " ++ tokenText) }
  else some config

/-! ## Route table and navigation guard (`src/router/index.js`) -/

/-- A route record of the table given to `createRouter`. -/
structure RouteRecord where
  path : JSString
  name : Option JSString := none
  requiresAdmin : Bool := false
  redirect : Option JSString := none
  children : List (JSString × Option JSString) := []

/-- The `routes` array, in source order.  A child is kept as its relative
path and its optional redirect. -/
def routes : List RouteRecord :=
  [ { path := js "/admin", requiresAdmin := true },
    { path := js "/developer",
      children := [(js "", some (js "/developer/docs")), (js "docs", none),
                   (js "dashboard", none)] },
    { path := js "/oauth/authorize", name := some (js "oauth-authorize") },
    { path := js "/", name := some (js "home") },
    { path := js "/about", name := some (js "about") },
    { path := js "/forum/bcm/:id", name := some (js "bcm-post-detail") },
    { path := js "/admin/banners", name := some (js "admin-banners") },
    { path := js "/work/:id", name := some (js "work-detail") },
    { path := js "/search", name := some (js "search-results") },
    { path := js "/login", name := some (js "login") },
    { path := js "/forum", name := some (js "forum") },
    { path := js "/forum/:id", name := some (js "post-detail") },
    { path := js "/showcase", name := some (js "showcase") },
    { path := js "/user/:id", name := some (js "user-profile") } ]

/-- The part of a resolved target route (`to`) that the guard reads:
`to.name` (absent for an unnamed record) and the truthiness of
`to.meta.requiresAdmin`; `path` is the path pattern of the matched record. -/
structure RouteLocation where
  path : JSString
  name : Option JSString
  requiresAdmin : Bool
deriving DecidableEq

/-- Path of a child record under its parent: relative paths are joined with
a slash, the empty child path is the parent path itself. -/
def childPath (parent child : JSString) : JSString :=
  if child.isEmpty then parent else parent ++ js "/" ++ child

/-- The targets a record gives rise to: itself and its children.  The
`meta` of a target merges the `meta` of the matched records, parent first;
children here carry none of their own. -/
def RouteRecord.locations (r : RouteRecord) : List RouteLocation :=
  { path := r.path, name := r.name, requiresAdmin := r.requiresAdmin } ::
    r.children.map (fun c =>
      { path := childPath r.path c.1, name := none, requiresAdmin := r.requiresAdmin })

/-- Every target of the route table. -/
def routeTable : List RouteLocation :=
  routes.foldr (fun r acc => r.locations ++ acc) []

/-- The argument of one call of `next`. -/
inductive NextCall where
  | proceed
  | toName (name : JSString)
  | toPath (path : JSString)
deriving DecidableEq

/-- The callback given to `router.beforeEach`: the calls of `next` it makes,
in order. -/
def beforeEach (authState : AuthState) (to_ : RouteLocation) : List NextCall :=
  let isAuthenticated := authState.isAuthenticated
  if !isAuthenticated && to_.name != some (js "login") then
    [NextCall.toName (js "login")]
  else
    if to_.requiresAdmin && !authState.isAdmin.truthy then
      [NextCall.toPath (js "/")]
    else
      [NextCall.proceed]

/-- Whether `needle` is a leading segment of `hay`. -/
def startsWith (hay needle : JSString) : Bool := needle.isPrefixOf hay

/-! ## Platform: `USVString`, UTF-8 and `application/x-www-form-urlencoded`

`URLSearchParams` is a browser object.  Its constructor, `append`, `toString`
and parser are embedded after the URL standard, the UTF-8 decoder after the
Encoding standard, the conversion of strings to `USVString` after Web IDL. -/

/-- A leading (high) surrogate code unit. -/
def isHighSurrogate (u : Nat) : Bool := 55296 ≤ u && u ≤ 56319

/-- A trailing (low) surrogate code unit. -/
def isLowSurrogate (u : Nat) : Bool := 56320 ≤ u && u ≤ 57343

/-- A code unit that is a scalar value by itself. -/
def isScalarUnit (u : Nat) : Bool := u < 55296 || (57343 < u && u < 65536)

/-- A Unicode scalar value: a code point that is no surrogate. -/
def isScalar (c : Nat) : Bool := c < 55296 || (57343 < c && c < 1114112)

/-- Conversion of a string to `USVString` (the scalar values of the string):
a surrogate pair is one scalar value, every other surrogate is replaced by
U+FFFD.  A number that is no code unit is treated likewise. -/
def toScalars : JSString → List Nat
  | [] => []
  | [u] => [if isScalarUnit u then u else 65533]
  | u :: v :: rest =>
    if isHighSurrogate u && isLowSurrogate v then
      (65536 + (u - 55296) * 1024 + (v - 56320)) :: toScalars rest
    else
      (if isScalarUnit u then u else 65533) :: toScalars (v :: rest)

/-- A string without unpaired surrogates (`String.prototype.isWellFormed`). -/
def isWellFormed : JSString → Bool
  | [] => true
  | [u] => isScalarUnit u
  | u :: v :: rest =>
    if isHighSurrogate u && isLowSurrogate v then isWellFormed rest
    else isScalarUnit u && isWellFormed (v :: rest)

/-- UTF-8 bytes of one scalar value. -/
def utf8EncodeScalar (c : Nat) : List Nat :=
  if c < 128 then [c]
  else if c < 2048 then [192 + c / 64, 128 + c % 64]
  else if c < 65536 then [224 + c / 4096, 128 + c / 64 % 64, 128 + c % 64]
  else [240 + c / 262144, 128 + c / 4096 % 64, 128 + c / 64 % 64, 128 + c % 64]

/-- UTF-8 encoding of scalar values. -/
def utf8Encode : List Nat → List Nat
  | [] => []
  | c :: rest => utf8EncodeScalar c ++ utf8Encode rest

/-- State of the UTF-8 decoder: code point so far, bytes needed and seen,
bounds of the next byte. -/
structure Utf8State where
  codePoint : Nat
  bytesNeeded : Nat
  bytesSeen : Nat
  lower : Nat
  upper : Nat

/-- The decoder between two code points. -/
def Utf8State.start : Utf8State :=
  { codePoint := 0, bytesNeeded := 0, bytesSeen := 0, lower := 128, upper := 191 }

/-- One byte read between two code points: the output and the next state. -/
def utf8Lead (b : Nat) : List Nat × Utf8State :=
  if b ≤ 127 then ([b], .start)
  else if 194 ≤ b && b ≤ 223 then
    ([], { Utf8State.start with bytesNeeded := 1, codePoint := b % 32 })
  else if 224 ≤ b && b ≤ 239 then
    ([], { Utf8State.start with
            bytesNeeded := 2, codePoint := b % 16,
            lower := if b = 224 then 160 else 128,
            upper := if b = 237 then 159 else 191 })
  else if 240 ≤ b && b ≤ 244 then
    ([], { Utf8State.start with
            bytesNeeded := 3, codePoint := b % 8,
            lower := if b = 240 then 144 else 128,
            upper := if b = 244 then 143 else 191 })
  else ([65533], .start)

/-- One byte read by the decoder.  A byte out of bounds inside a code point
ends it with U+FFFD and is read again as a first byte. -/
def utf8Step (st : Utf8State) (b : Nat) : List Nat × Utf8State :=
  if st.bytesNeeded = 0 then utf8Lead b
  else if b < st.lower || st.upper < b then
    (65533 :: (utf8Lead b).1, (utf8Lead b).2)
  else
    let cp := st.codePoint * 64 + b % 64
    if st.bytesSeen + 1 = st.bytesNeeded then ([cp], .start)
    else ([], { codePoint := cp, bytesNeeded := st.bytesNeeded,
                bytesSeen := st.bytesSeen + 1, lower := 128, upper := 191 })

/-- Run of the decoder; an unfinished code point at the end gives U+FFFD. -/
def utf8DecodeFrom : Utf8State → List Nat → List Nat
  | st, [] => if st.bytesNeeded = 0 then [] else [65533]
  | st, b :: rest => (utf8Step st b).1 ++ utf8DecodeFrom (utf8Step st b).2 rest

/-- UTF-8 decode without BOM: replacement on error, never a failure. -/
def utf8Decode (bytes : List Nat) : List Nat := utf8DecodeFrom .start bytes

/-- Bytes left as they are by the urlencoded serializer: ASCII letters and
digits, and the four characters asterisk, hyphen, full stop, underscore. -/
def isUrlencodedSafe (b : Nat) : Bool :=
  (48 ≤ b && b ≤ 57) || (65 ≤ b && b ≤ 90) || (97 ≤ b && b ≤ 122)
    || b = 42 || b = 45 || b = 46 || b = 95

/-- Upper-case hexadecimal digit of a number below 16. -/
def hexDigit (n : Nat) : Nat := if n < 10 then 48 + n else 55 + n

/-- Percent-encoding of one byte with space as plus. -/
def urlencodeByte (b : Nat) : List Nat :=
  if b = 32 then [43]
  else if isUrlencodedSafe b then [b]
  else [37, hexDigit (b / 16), hexDigit (b % 16)]

/-- Percent-encoding of a byte sequence. -/
def urlencodeBytes : List Nat → List Nat
  | [] => []
  | b :: rest => urlencodeByte b ++ urlencodeBytes rest

/-- Serialization of one name or value of scalar values. -/
def urlencodeString (scalars : List Nat) : List Nat :=
  urlencodeBytes (utf8Encode scalars)

/-- The `application/x-www-form-urlencoded` serializer. -/
def urlencodedSerialize : List (List Nat × List Nat) → JSString
  | [] => []
  | [(n, v)] => urlencodeString n ++ [61] ++ urlencodeString v
  | (n, v) :: p :: rest =>
    urlencodeString n ++ [61] ++ urlencodeString v ++ [38] ++ urlencodedSerialize (p :: rest)

/-- An ASCII hexadecimal digit. -/
def isHexDigit (b : Nat) : Bool :=
  (48 ≤ b && b ≤ 57) || (65 ≤ b && b ≤ 70) || (97 ≤ b && b ≤ 102)

/-- Value of an ASCII hexadecimal digit. -/
def hexValue (b : Nat) : Nat :=
  if b ≤ 57 then b - 48 else if b ≤ 70 then b - 55 else b - 87

/-- Percent-decoding of a byte sequence: a percent sign not followed by two
hexadecimal digits stands for itself. -/
def percentDecode : List Nat → List Nat
  | [] => []
  | [b] => [b]
  | [b, c] => [b, c]
  | b :: h :: l :: rest =>
    if b = 37 && isHexDigit h && isHexDigit l then
      (hexValue h * 16 + hexValue l) :: percentDecode rest
    else b :: percentDecode (h :: l :: rest)

/-- Strict split of a sequence on a delimiter. -/
def splitOn (d : Nat) : List Nat → List (List Nat)
  | [] => [[]]
  | b :: rest =>
    if b = d then [] :: splitOn d rest
    else
      match splitOn d rest with
      | [] => [[b]]
      | piece :: pieces => (b :: piece) :: pieces

/-- Replacement of every plus sign by a space. -/
def plusToSpace (bytes : List Nat) : List Nat :=
  bytes.map (fun b => if b = 43 then 32 else b)

/-- Decoding of one name or value of the urlencoded parser. -/
def urldecodeString (bytes : List Nat) : List Nat :=
  utf8Decode (percentDecode (plusToSpace bytes))

/-- One non-empty sequence of the urlencoded parser: name up to the first
equals sign, value after it, the value empty when there is none. -/
def urldecodePair (bytes : List Nat) : List Nat × List Nat :=
  (urldecodeString (bytes.takeWhile (fun b => b != 61)),
   urldecodeString ((bytes.dropWhile (fun b => b != 61)).drop 1))

/-- The `application/x-www-form-urlencoded` parser on bytes: empty sequences
between ampersands are skipped. -/
def urlencodedParse (bytes : List Nat) : List (List Nat × List Nat) :=
  ((splitOn 38 bytes).filter (fun piece => !piece.isEmpty)).map urldecodePair

/-- A `URLSearchParams` object: its list of name-value pairs, each a
sequence of scalar values. -/
structure URLSearchParams where
  list : List (List Nat × List Nat)
deriving DecidableEq

/-- Constructor `new URLSearchParams(record)`: one pair per own property, in
order, names and values converted to `USVString`. -/
def URLSearchParams.ofRecord (record : List (JSString × JSString)) : URLSearchParams :=
  { list := record.map (fun kv => (toScalars kv.1, toScalars kv.2)) }

/-- A string without its leading question mark, if it has one. -/
def dropQuestionMark : JSString → JSString
  | [] => []
  | u :: rest => if u = 63 then rest else u :: rest

/-- Constructor `new URLSearchParams(string)`: a single leading question mark
is dropped, the rest is UTF-8 encoded and parsed. -/
def URLSearchParams.ofString (init : JSString) : URLSearchParams :=
  { list := urlencodedParse (utf8Encode (toScalars (dropQuestionMark init))) }

/-- Every name and value of the list is a sequence of scalar values. -/
def ScalarPairs (ps : List (List Nat × List Nat)) : Prop :=
  ∀ p ∈ ps, (∀ c ∈ p.1, isScalar c = true) ∧ (∀ c ∈ p.2, isScalar c = true)

/-- Method `append(name, value)`. -/
def URLSearchParams.append (p : URLSearchParams) (name value : JSString) : URLSearchParams :=
  { list := p.list ++ [(toScalars name, toScalars value)] }

/-- Method `toString()`. -/
def URLSearchParams.toString (p : URLSearchParams) : JSString :=
  urlencodedSerialize p.list

/-- Method `getAll(name)`: the values of the pairs of that name, in order. -/
def URLSearchParams.getAll (p : URLSearchParams) (name : JSString) : List JSString :=
  (p.list.filter (fun kv => kv.1 = toScalars name)).map (fun kv => utf16Encode kv.2)

/-- Method `get(name)`: the first value of that name, `null` when none. -/
def URLSearchParams.get (p : URLSearchParams) (name : JSString) : Option JSString :=
  (p.getAll name).head?

/-- The pairs of the object as strings, in order. -/
def URLSearchParams.entries (p : URLSearchParams) : List (JSString × JSString) :=
  p.list.map (fun kv => (utf16Encode kv.1, utf16Encode kv.2))

/-- Method `String.prototype.includes` on a string argument. -/
def includes : JSString → JSString → Bool
  | [], needle => needle.isEmpty
  | u :: rest, needle => needle.isPrefixOf (u :: rest) || includes rest needle

/-- The query of a URL string: what follows the first question mark, up to
the first number sign. -/
def urlQuery (href : JSString) : JSString :=
  ((href.dropWhile (fun u => u != 63)).drop 1).takeWhile (fun u => u != 35)

/-- Conversion to `USVString` and back to a string. -/
def usv (s : JSString) : JSString := utf16Encode (toScalars s)

/-- The form-urlencoding of a record of strings: what
`new URLSearchParams(record).toString()` returns. -/
def formUrlencode (record : List (JSString × JSString)) : JSString :=
  (URLSearchParams.ofRecord record).toString

/-! ## SSO helper (`public/sdk/codeman-sso.js`) -/

/-- What the helper reads and writes of `window.location`. -/
structure Location where
  origin : JSString
  href : JSString
deriving DecidableEq

/-- The window: its location, and the first argument of every `console`
call made so far. -/
structure Window where
  location : Location
  console : List JSString
deriving DecidableEq

/-- The `config` object of the helper: `clientId` is `null` or a string. -/
structure Config where
  clientId : Option JSString
  redirectUri : JSString
  responseType : JSString
  debug : Bool
deriving DecidableEq

/-- The `options` argument of `init`: each of the four properties may be
absent. -/
structure Options where
  clientId : Option (Option JSString) := none
  redirectUri : Option JSString := none
  responseType : Option JSString := none
  debug : Option Bool := none
deriving DecidableEq

/-- The constant `AUTH_BASE_URL`, fixed when the script is evaluated. -/
def AUTH_BASE_URL (origin : JSString) : JSString :=
  if includes origin (js "localhost") then js "http://localhost:5173"
  else js "https://codeman.bettermao.cfd"

/-- The constant `API_BASE_URL`, fixed when the script is evaluated. -/
def API_BASE_URL (origin : JSString) : JSString :=
  if includes origin (js "localhost") then js "http://localhost:8000/api"
  else js "https://codeman.bettermao.cfd/api"

/-- The helper object `CodeManSSO` with the two constants of its closure. -/
structure CodeManSSO where
  AUTH_BASE_URL : JSString
  API_BASE_URL : JSString
  config : Config
deriving DecidableEq

/-- Expression `href.split('?')[0]`: the part before the first question
mark. -/
def splitFirst (href : JSString) : JSString :=
  href.takeWhile (fun u => u != 63)

/-- The helper as the script leaves it in `window.CodeManSSO`. -/
def CodeManSSO.load (location : Location) : CodeManSSO where
  AUTH_BASE_URL := CodeMan.AUTH_BASE_URL location.origin
  API_BASE_URL := CodeMan.API_BASE_URL location.origin
  config := { clientId := none, redirectUri := splitFirst location.href,
              responseType := js "code", debug := false }

/-- Spread of `this.config` and then `options` into a new object: a property
of `options` replaces the one of `config`. -/
def Config.merge (config : Config) (options : Options) : Config where
  clientId := options.clientId.getD config.clientId
  redirectUri := options.redirectUri.getD config.redirectUri
  responseType := options.responseType.getD config.responseType
  debug := options.debug.getD config.debug

/-- Method `init(options)`. -/
def CodeManSSO.init (sdk : CodeManSSO) (options : Options) (w : Window) :
    CodeManSSO × Window :=
  let sdk2 := { sdk with config := sdk.config.merge options }
  if sdk2.config.debug then
    (sdk2, { w with console := w.console ++ [js "CodeMan SSO initialized with:"] })
  else (sdk2, w)

/-- A sequence of `init` calls, first call first. -/
def CodeManSSO.initAll (sdk : CodeManSSO) : List Options → Window → CodeManSSO × Window
  | [], w => (sdk, w)
  | options :: rest, w => CodeManSSO.initAll (sdk.init options w).1 rest (sdk.init options w).2

/-- Method `login(state)`; `state` is `none` when the argument is left out. -/
def CodeManSSO.login (sdk : CodeManSSO) (state : Option JSString) (w : Window) : Window :=
  if !truthyOpt sdk.config.clientId then
    { w with console := w.console ++
        [js "CodeMan SSO: clientId is missing. Call init() first."] }
  else
    let params := URLSearchParams.ofRecord
      [(js "client_id", sdk.config.clientId.getD (js "null")),
       (js "redirect_uri", sdk.config.redirectUri),
       (js "response_type", sdk.config.responseType)]
    let params :=
      match state with
      | none => params
      | some s => if s.truthy then params.append (js "state") s else params
    { w with location := { w.location with
        href := sdk.AUTH_BASE_URL ++ js "/oauth/authorize?" ++ params.toString } }

/-- The arguments of one `fetch` call. -/
structure FetchCall where
  url : JSString
  method : Option JSString
  headers : List (JSString × JSString)
  body : Option JSString
deriving DecidableEq

/-- What the helper reads of a response: `response.ok`, and the value
`response.json()` resolves with, `none` when it rejects. -/
structure Response where
  ok : Bool
  json : Option JSVal

/-- The network: the response to a call, `none` when `fetch` rejects. -/
abbrev Fetch := FetchCall → Option Response

/-- What an async method rejects with: an `Error` made by the helper, or the
reason of a rejected platform promise. -/
inductive Thrown where
  | error (message : JSString)
  | platform

/-- One run of an async method: the `fetch` calls made, the first argument of
every `console` call, and how the returned promise settles. -/
structure AsyncRun where
  requests : List FetchCall
  console : List JSString
  result : Except Thrown JSVal

/-- Body of the two `try` blocks after the `fetch` call: the check of
`response.ok`, `response.json()`, and the `catch` that logs and rethrows. -/
def settle (call : FetchCall) (failure : JSString) (outcome : Option Response) : AsyncRun :=
  match outcome with
  | none =>
    { requests := [call], console := [js "CodeMan SSO Error:"], result := .error .platform }
  | some response =>
    if !response.ok then
      { requests := [call], console := [js "CodeMan SSO Error:"],
        result := .error (.error failure) }
    else
      match response.json with
      | none =>
        { requests := [call], console := [js "CodeMan SSO Error:"],
          result := .error .platform }
      | some value => { requests := [call], console := [], result := .ok value }

/-- The `fetch` call of `exchangeToken`. -/
def tokenCall (sdk : CodeManSSO) (J : JSONImpl) (code clientSecret : JSString) : FetchCall where
  url := sdk.API_BASE_URL ++ js "/oauth/token"
  method := some (js "POST")
  headers := [(js "Content-Type", js "application/json")]
  body := some (J.stringify (.obj
    [(js "grant_type", .str (js "authorization_code")),
     (js "code", .str code),
     (js "client_id", JSVal.ofItem sdk.config.clientId),
     (js "client_secret", .str clientSecret),
     (js "redirect_uri", .str sdk.config.redirectUri)]))

/-- Method `exchangeToken(code, clientSecret)`. -/
def CodeManSSO.exchangeToken (sdk : CodeManSSO) (J : JSONImpl) (fetch : Fetch)
    (code clientSecret : JSString) : AsyncRun :=
  settle (tokenCall sdk J code clientSecret) (js "Token exchange failed")
    (fetch (tokenCall sdk J code clientSecret))

/-- The `fetch` call of `getUserInfo`. -/
def userInfoCall (sdk : CodeManSSO) (accessToken : JSString) : FetchCall where
  url := sdk.API_BASE_URL ++ js "/oauth/userinfo"
  method := none
  headers := [(js "Authorization", js "Bearer " ++ accessToken)]
  body := none

/-- Method `getUserInfo(accessToken)`. -/
def CodeManSSO.getUserInfo (sdk : CodeManSSO) (fetch : Fetch) (accessToken : JSString) :
    AsyncRun :=
  settle (userInfoCall sdk accessToken) (js "Failed to fetch user info")
    (fetch (userInfoCall sdk accessToken))

/-- Method `getAuthCodeFromUrl()`, on `window.location.search`. -/
def CodeManSSO.getAuthCodeFromUrl (search : JSString) : Option JSString :=
  (URLSearchParams.ofString search).get (js "code")

/-! ## Authorization server (spec sections 3, 4.1, 4.2, 4.4)

The server behind `/oauth/token` is not among the sources; `exchangeToken`
is its caller.  The definitions of this section follow the specification. -/

/-- Modelled from the spec: the AuthorizationCode record of section 3 (the
Code Store is not among the sources).  Times are seconds on the server
clock. -/
structure AuthorizationCode where
  value : JSString
  clientId : JSString
  redirectUri : JSString
  userId : JSString
  scope : JSString
  issuedAt : Nat
  expiry : Nat
  consumed : Bool
deriving DecidableEq

/-- Modelled from the spec: the Code Store of section 4.1, which persists
codes keyed by their value (not among the sources). -/
abbrev CodeStore := JSString → Option AuthorizationCode

/-- Modelled from the spec: the failures of `redeem` in section 4.1 (the Code
Store is not among the sources). -/
inductive RedeemError where
  | NotFound
  | Expired
  | AlreadyConsumed
deriving DecidableEq

/-- Modelled from the spec: `issue` of section 4.1 (the Code Store is not
among the sources).  The generated value is the argument `fresh`; as the
generator is guaranteed to give a value that no stored code has, a value that
some stored code has is no result of it and nothing is issued. -/
def CodeStore.issue (store : CodeStore) (fresh clientId redirectUri userId scope : JSString)
    (now ttl : Nat) : Option (JSString × CodeStore) :=
  match store fresh with
  | some _ => none
  | none =>
    some (fresh, fun k =>
      if k = fresh then
        some { value := fresh, clientId := clientId, redirectUri := redirectUri,
               userId := userId, scope := scope, issuedAt := now, expiry := now + ttl,
               consumed := false }
      else store k)

/-- Modelled from the spec: `redeem` of section 4.1 (the Code Store is not
among the sources): `NotFound` if absent, `Expired` if past expiry,
`AlreadyConsumed` if the flag is set; otherwise the flag is set and the record
returned, as one atomic operation. -/
def CodeStore.redeem (store : CodeStore) (code : JSString) (now : Nat) :
    Except RedeemError AuthorizationCode × CodeStore :=
  match store code with
  | none => (.error .NotFound, store)
  | some record =>
    if record.expiry ≤ now then (.error .Expired, store)
    else if record.consumed then (.error .AlreadyConsumed, store)
    else
      (.ok { record with consumed := true },
       fun k => if k = code then some { record with consumed := true } else store k)

/-- Modelled from the spec: the Client of section 3 (the Client Registry is
not among the sources). -/
structure Client where
  clientId : JSString
  secretHash : JSString
  redirectUris : List JSString
deriving DecidableEq

/-- Modelled from the spec: the Client Registry of section 4.2, with the hash
function of the stored secrets (not among the sources). -/
structure ClientRegistry where
  clients : List Client
  hash : JSString → JSString

/-- Modelled from the spec: `lookup` of section 4.2 (the Client Registry is
not among the sources); `none` stands for `UnknownClient`. -/
def ClientRegistry.lookup (registry : ClientRegistry) (clientId : JSString) : Option Client :=
  registry.clients.find? (fun c => c.clientId = clientId)

/-- Modelled from the spec: `verifySecret` of section 4.2 (the Client
Registry is not among the sources): the hash of the supplied secret is the
stored one. -/
def ClientRegistry.verifySecret (registry : ClientRegistry) (clientId suppliedSecret : JSString) :
    Bool :=
  match registry.lookup clientId with
  | none => false
  | some client => registry.hash suppliedSecret = client.secretHash

/-- Modelled from the spec: `isRedirectAllowed` of section 4.2 (the Client
Registry is not among the sources): exact match only. -/
def ClientRegistry.isRedirectAllowed (registry : ClientRegistry)
    (clientId redirectUri : JSString) : Bool :=
  match registry.lookup clientId with
  | none => false
  | some client => client.redirectUris.contains redirectUri

/-- Modelled from the spec: the input of the Token Endpoint of section 4.4
(not among the sources), the five fields of the body that `exchangeToken`
posts. -/
structure TokenRequest where
  grantType : JSString
  code : JSString
  clientId : JSString
  clientSecret : JSString
  redirectUri : JSString
deriving DecidableEq

/-- Modelled from the spec: the failures of the Token Endpoint of section 4.4
(not among the sources). -/
inductive TokenError where
  | UnsupportedGrantType
  | InvalidClient
  | InvalidGrant
  | RedirectMismatch
  | ClientMismatch
deriving DecidableEq

/-- Modelled from the spec: the AccessToken of section 3 (the Token Endpoint
is not among the sources). -/
structure AccessToken where
  value : JSString
  userId : JSString
  clientId : JSString
  scope : JSString
  issuedAt : Nat
  expiry : Nat
deriving DecidableEq

/-- Modelled from the spec: the Token Endpoint of section 4.4 (not among the
sources), its checks in the order of the section: grant type, client secret,
redemption, redirect URI, client.  `entropy` is the unguessable value of the
token minted. -/
def tokenEndpoint (registry : ClientRegistry) (tokenTtl : Nat) (store : CodeStore)
    (req : TokenRequest) (now : Nat) (entropy : JSString) :
    Except TokenError AccessToken × CodeStore :=
  if req.grantType ≠ js "authorization_code" then (.error .UnsupportedGrantType, store)
  else if !registry.verifySecret req.clientId req.clientSecret then
    (.error .InvalidClient, store)
  else
    match store.redeem req.code now with
    | (.error _, store2) => (.error .InvalidGrant, store2)
    | (.ok record, store2) =>
      if record.redirectUri ≠ req.redirectUri then (.error .RedirectMismatch, store2)
      else if record.clientId ≠ req.clientId then (.error .ClientMismatch, store2)
      else
        (.ok { value := entropy, userId := record.userId, clientId := record.clientId,
               scope := record.scope, issuedAt := now, expiry := now + tokenTtl },
         store2)

/-- Modelled from the spec: what the Token Endpoint of section 4.4 (not
among the sources) answers to a request whose code was redeemed before. -/
def replayError (registry : ClientRegistry) (req : TokenRequest) : TokenError :=
  if req.grantType ≠ js "authorization_code" then .UnsupportedGrantType
  else if !registry.verifySecret req.clientId req.clientSecret then .InvalidClient
  else .InvalidGrant

/-- Modelled from the spec: one atomic operation on the Code Store (section
5; the server is not among the sources): a code issued for an authorize
request, or a token exchange. -/
inductive ServerEvent where
  | issue (fresh clientId redirectUri userId scope : JSString) (now : Nat)
  | exchange (req : TokenRequest) (now : Nat) (entropy : JSString)

/-- Modelled from the spec: the Code Store after one operation (the server is
not among the sources). -/
def ServerEvent.storeAfter (registry : ClientRegistry) (codeTtl tokenTtl : Nat)
    (store : CodeStore) : ServerEvent → CodeStore
  | .issue fresh clientId redirectUri userId scope now =>
    match store.issue fresh clientId redirectUri userId scope now codeTtl with
    | none => store
    | some (_, store2) => store2
  | .exchange req now entropy => (tokenEndpoint registry tokenTtl store req now entropy).2

/-- Modelled from the spec: the Code Store after a sequence of operations,
which is what a concurrent execution amounts to, every operation on the store
being atomic (section 5; the server is not among the sources). -/
def storeAfterAll (registry : ClientRegistry) (codeTtl tokenTtl : Nat) :
    CodeStore → List ServerEvent → CodeStore
  | store, [] => store
  | store, e :: rest =>
    storeAfterAll registry codeTtl tokenTtl (e.storeAfter registry codeTtl tokenTtl store) rest

/-- Modelled from the spec: the token exchanges of a sequence of operations,
each with its answer (the server is not among the sources). -/
def exchanges (registry : ClientRegistry) (codeTtl tokenTtl : Nat) :
    CodeStore → List ServerEvent → List (TokenRequest × Except TokenError AccessToken)
  | _, [] => []
  | store, .issue fresh clientId redirectUri userId scope now :: rest =>
    exchanges registry codeTtl tokenTtl
      ((ServerEvent.issue fresh clientId redirectUri userId scope now).storeAfter
        registry codeTtl tokenTtl store) rest
  | store, .exchange req now entropy :: rest =>
    (req, (tokenEndpoint registry tokenTtl store req now entropy).1) ::
      exchanges registry codeTtl tokenTtl
        ((tokenEndpoint registry tokenTtl store req now entropy).2) rest

/-- Whether an answer of the Token Endpoint is a token. -/
def isToken : Except TokenError AccessToken → Bool
  | .ok _ => true
  | .error _ => false

/-- The successful exchanges of a code among the exchanges of a run. -/
def successesOf (code : JSString)
    (run : List (TokenRequest × Except TokenError AccessToken)) :
    List (TokenRequest × Except TokenError AccessToken) :=
  run.filter (fun p => decide (p.1.code = code) && isToken p.2)

/-- Whether the store holds the code with its consumed flag set. -/
def CodeStore.isConsumed (store : CodeStore) (code : JSString) : Bool :=
  match store code with
  | none => false
  | some record => record.consumed

/-- The token request that `exchangeToken` posts, for a helper with a client
id. -/
def tokenRequestOf (config : Config) (clientId code clientSecret : JSString) : TokenRequest where
  grantType := js "authorization_code"
  code := code
  clientId := clientId
  clientSecret := clientSecret
  redirectUri := config.redirectUri

/-- A registry holding the client "app1", secrets stored as they are. -/
def sampleRegistry : ClientRegistry where
  clients := [{ clientId := js "app1", secretHash := js "s3cret",
                redirectUris := [js "https://app1.test/cb"] }]
  hash := fun secret => secret

/-- A store holding one code, issued at time 0 for "app1" and user "u1". -/
def sampleStore : CodeStore :=
  match CodeStore.issue (fun _ => none) (js "c0de") (js "app1") (js "https://app1.test/cb")
      (js "u1") (js "profile") 0 600 with
  | none => fun _ => none
  | some (_, store) => store

/-- The record entries that `login` adds for its `state` argument: the pair
of name 'state' for a truthy argument, nothing otherwise. -/
def stateRecord : Option JSString → List (JSString × JSString)
  | none => []
  | some s => if s.truthy then [(js "state", s)] else []

/-- The record that `login` serializes: the three properties of the object
literal, then the appended state. -/
def loginRecord (clientId : JSString) (config : Config) (state : Option JSString) :
    List (JSString × JSString) :=
  [(js "client_id", clientId), (js "redirect_uri", config.redirectUri),
   (js "response_type", config.responseType)] ++ stateRecord state

/-- A page of an application on a development host. -/
def sampleLocation : Location where
  origin := js "http://localhost:3000"
  href := js "http://localhost:3000/cb?x=1"

/-- The window of that page, nothing logged yet. -/
def sampleWindow : Window where
  location := sampleLocation
  console := []

/-- The helper on that page after `init` with a client id and a redirect
URI. -/
def sampleSDK : CodeManSSO :=
  { CodeManSSO.load sampleLocation with
    config := { clientId := some (js "app1"), redirectUri := js "https://app1.test/cb",
                responseType := js "code", debug := false } }

/-- A fragment of `JSON`, enough for the examples below: `stringify` on
`null` and on the two sample users, `parse` on the three texts these give.
On every other text, the empty one among them, `parse` throws. -/
def sampleJSON : JSONImpl where
  stringify := fun v =>
    match v with
    | .null => js "null"
    | .obj [(_, .obj _)] => js "\x7b\"id\":\x7b\"toString\":null\x7d\x7d"
    | _ => js "\x7b\"id\":7\x7d"
  parse := fun s =>
    if s = js "null" then some .null
    else if s = js "\x7b\"id\":7\x7d" then some (.obj [(js "id", .num false 7)])
    else if s = js "\x7b\"id\":\x7b\"toString\":null\x7d\x7d" then
      some (.obj [(js "id", .obj [(js "toString", .null)])])
    else none

/-- A user whose `id` is an object with an own property named 'toString', as
`JSON.parse` gives for the third text of the fragment. -/
def objectIdUser : JSVal := .obj [(js "id", .obj [(js "toString", .null)])]

/-- A signed-in user without the admin flag. -/
def sampleUser : JSVal := .obj [(js "id", .num false 7)]

/-- The auth state of a signed-in user that is no admin. -/
def sampleAuth : AuthState where
  user := sampleUser
  token := .str (js "t")
  isAuthenticated := true
  showLoginModal := false

/-- The state of a browser that never signed in. -/
def freshApp : App where
  localStorage := fun _ => none
  authState := { user := .null, token := .null, isAuthenticated := false,
                 showLoginModal := false }

/-! # Theorems -/

/-! ## Navigation guard -/

/-- C4. For every target whose name is not 'login', a guard run with
`authState.isAuthenticated` false makes exactly one call of `next`, with the
redirect to the route named 'login', and so never proceeds to the target. -/
theorem beforeEach_unauthenticated (authState : AuthState) (to_ : RouteLocation)
    (hname : to_.name ≠ some (js "login"))
    (hauth : authState.isAuthenticated = false) :
    beforeEach authState to_ = [NextCall.toName (js "login")] := by
  simp [beforeEach, hauth, hname]

/-- C4 at the unnamed '/admin' target, for a browser that never signed in. -/
theorem beforeEach_unauthenticated_witness :
    beforeEach freshApp.authState
        { path := js "/admin", name := none, requiresAdmin := true }
      = [NextCall.toName (js "login")] :=
  beforeEach_unauthenticated freshApp.authState
    { path := js "/admin", name := none, requiresAdmin := true } (by decide) rfl

/-- The '/oauth/authorize' target is guarded like every other one. -/
theorem beforeEach_unauthenticated_authorize (authState : AuthState)
    (hauth : authState.isAuthenticated = false) :
    beforeEach authState
        { path := js "/oauth/authorize", name := some (js "oauth-authorize"),
          requiresAdmin := false }
      = [NextCall.toName (js "login")] := by
  simp [beforeEach, hauth]
  decide

/-- The guard calls `next` exactly once whatever the state and the target. -/
theorem beforeEach_length (authState : AuthState) (to_ : RouteLocation) :
    (beforeEach authState to_).length = 1 := by
  simp only [beforeEach]
  split_ifs <;> rfl

/-- An authenticated navigation is redirected to '/' exactly when the target
carries the `requiresAdmin` flag and the user is no admin. -/
theorem beforeEach_authenticated (authState : AuthState) (to_ : RouteLocation)
    (hauth : authState.isAuthenticated = true) :
    beforeEach authState to_ =
      if to_.requiresAdmin && !authState.isAdmin.truthy then [NextCall.toPath (js "/")]
      else [NextCall.proceed] := by
  simp [beforeEach, hauth]

/-- The targets of the route table under '/admin' are '/admin', flagged, and
'/admin/banners', not flagged; no target outside '/admin' is flagged. -/
theorem routeTable_admin_flags :
    (routeTable.filter (fun l => startsWith l.path (js "/admin"))).map
        (fun l => (l.path, l.requiresAdmin))
      = [(js "/admin", true), (js "/admin/banners", false)]
    ∧ (routeTable.filter (fun l => !startsWith l.path (js "/admin"))).all
        (fun l => !l.requiresAdmin) = true := by
  decide

/-- C8, at the target that carries no `requiresAdmin` flag: for a signed-in
user that is no admin the guard proceeds to '/admin/banners', a target of the
route table under '/admin', where the '/admin' target next to it is
redirected to '/'. -/
theorem beforeEach_admin_banners_not_gated :
    ({ path := js "/admin/banners", name := some (js "admin-banners"),
       requiresAdmin := false } : RouteLocation) ∈ routeTable
    ∧ ({ path := js "/admin", name := none, requiresAdmin := true } : RouteLocation)
        ∈ routeTable
    ∧ sampleAuth.isAuthenticated = true
    ∧ sampleAuth.isAdmin.truthy = false
    ∧ beforeEach sampleAuth
        { path := js "/admin/banners", name := some (js "admin-banners"),
          requiresAdmin := false }
      = [NextCall.proceed]
    ∧ beforeEach sampleAuth
        { path := js "/admin", name := none, requiresAdmin := true }
      = [NextCall.toPath (js "/")] := by
  refine ⟨by decide, by decide, by decide, by decide, by decide, by decide⟩

/-! ## Axios request interceptor -/

theorem lookup_setProp_self (fields : List (JSString × JSString)) (key value : JSString) :
    (setProp fields key value).lookup key = some value := by
  induction fields with
  | nil => simp [setProp, List.lookup]
  | cons kv rest ih =>
    obtain ⟨k, v⟩ := kv
    by_cases h : k = key
    · simp [setProp, h, List.lookup]
    · have h2 : (key == k) = false := by simpa using fun e => h e.symm
      simp [setProp, h, List.lookup, h2, ih]

theorem lookup_setProp_other (fields : List (JSString × JSString)) (key value k2 : JSString)
    (hk : k2 ≠ key) :
    (setProp fields key value).lookup k2 = fields.lookup k2 := by
  induction fields with
  | nil =>
    have h2 : (k2 == key) = false := by simpa using hk
    simp [setProp, List.lookup, h2]
  | cons kv rest ih =>
    obtain ⟨k, v⟩ := kv
    by_cases h : k = key
    · subst h
      have h2 : (k2 == k) = false := by simpa using hk
      simp [setProp, List.lookup, h2]
    · by_cases h3 : k2 = k
      · subst h3
        simp [setProp, h, List.lookup]
      · have h4 : (k2 == k) = false := by simpa using h3
        simp [setProp, h, List.lookup, h4, ih]

/-- C6. The token of the auth state is `null` or a string: what
`localStorage.getItem` returns and what `login` is given.  With a non-empty
string as `authState.token` the interceptor returns a config that has
`headers.Authorization` equal to "Bearer " followed by the token, every other
header and every other field as before; with `null` or the empty string, as
with every falsy token, the config is returned unchanged.  For every auth
state, whatever config is returned has every header but `Authorization` and
every other field as before. -/
theorem requestInterceptor_spec {α : Type} (authState : AuthState)
    (config : AxiosConfig α) :
    (∀ t : JSString, authState.token = .str t → t ≠ [] →
        ∃ returned : AxiosConfig α,
          requestInterceptor authState config = some returned
          ∧ returned.headers.lookup (js "Authorization") = some (js "Bearer " ++ t)
          ∧ (∀ k, k ≠ js "Authorization" →
              returned.headers.lookup k = config.headers.lookup k)
          ∧ returned.rest = config.rest)
    ∧ (authState.token = .null ∨ authState.token = .str [] →
        requestInterceptor authState config = some config)
    ∧ (authState.token.truthy = false → requestInterceptor authState config = some config)
    ∧ (∀ returned : AxiosConfig α, requestInterceptor authState config = some returned →
        (∀ k, k ≠ js "Authorization" →
            returned.headers.lookup k = config.headers.lookup k)
        ∧ returned.rest = config.rest) := by
  refine ⟨?_, ?_, ?_, ?_⟩
  · intro t htok hne
    have ht : (JSVal.str t).truthy = true := by
      cases t with
      | nil => exact absurd rfl hne
      | cons u rest => rfl
    refine ⟨{ config with
      headers := setProp config.headers (js "Authorization") (js "Bearer " ++ t) }, ?_,
      lookup_setProp_self _ _ _, fun k hk => lookup_setProp_other _ _ _ _ hk, rfl⟩
    unfold requestInterceptor
    rw [htok, if_pos ht]
    rfl
  · intro h
    unfold requestInterceptor
    rcases h with h | h <;> rw [h] <;> rfl
  · intro h
    unfold requestInterceptor
    rw [h]
    rfl
  · intro returned hret
    unfold requestInterceptor at hret
    split_ifs at hret with ht
    · cases hs : authState.token.toJSString with
      | none => rw [hs] at hret; exact absurd hret (by simp)
      | some tokenText =>
        rw [hs] at hret
        simp only [Option.some.injEq] at hret
        subst hret
        exact ⟨fun k hk => lookup_setProp_other _ _ _ _ hk, rfl⟩
    · simp only [Option.some.injEq] at hret
      subst hret
      exact ⟨fun _ _ => rfl, rfl⟩

/-- C6 for a signed-in user with the token 't' and a request that already has
a header. -/
theorem requestInterceptor_spec_witness :
    ∃ returned : AxiosConfig Unit,
      requestInterceptor sampleAuth
          { headers := [(js "Accept", js "application/json")], rest := () } = some returned
      ∧ returned.headers.lookup (js "Authorization") = some (js "Bearer " ++ js "t")
      ∧ (∀ k, k ≠ js "Authorization" →
          returned.headers.lookup k
            = List.lookup k [(js "Accept", js "application/json")])
      ∧ returned.rest = () :=
  (requestInterceptor_spec sampleAuth
    ({ headers := [(js "Accept", js "application/json")], rest := () } : AxiosConfig Unit)).1
      (js "t") rfl (by decide)

/-! ## UTF-16, UTF-8 and urlencoded round trips -/

theorem utf8Step_start (b : Nat) : utf8Step .start b = utf8Lead b := by
  simp [utf8Step, Utf8State.start]

theorem utf8Lead_one (b : Nat) (h : b ≤ 127) : utf8Lead b = ([b], .start) := by
  simp [utf8Lead, h]

theorem utf8Lead_two (b : Nat) (h1 : 194 ≤ b) (h2 : b ≤ 223) :
    utf8Lead b = ([], { codePoint := b % 32, bytesNeeded := 1, bytesSeen := 0,
                        lower := 128, upper := 191 }) := by
  have h0 : ¬ b ≤ 127 := by omega
  simp [utf8Lead, h0, h1, h2, Utf8State.start]

theorem utf8Lead_three (b : Nat) (h1 : 224 ≤ b) (h2 : b ≤ 239) :
    utf8Lead b = ([], { codePoint := b % 16, bytesNeeded := 2, bytesSeen := 0,
                        lower := if b = 224 then 160 else 128,
                        upper := if b = 237 then 159 else 191 }) := by
  have h0 : ¬ b ≤ 127 := by omega
  have h3 : ¬ b ≤ 223 := by omega
  simp [utf8Lead, h0, h1, h2, h3, Utf8State.start]

theorem utf8Lead_four (b : Nat) (h1 : 240 ≤ b) (h2 : b ≤ 244) :
    utf8Lead b = ([], { codePoint := b % 8, bytesNeeded := 3, bytesSeen := 0,
                        lower := if b = 240 then 144 else 128,
                        upper := if b = 244 then 143 else 191 }) := by
  have h0 : ¬ b ≤ 127 := by omega
  have h3 : ¬ b ≤ 223 := by omega
  have h4 : ¬ b ≤ 239 := by omega
  simp [utf8Lead, h0, h1, h2, h3, h4, Utf8State.start]

theorem utf8Step_last (cp need seen lo hi b : Nat) (h1 : lo ≤ b) (h2 : b ≤ hi)
    (h3 : seen + 1 = need) :
    utf8Step { codePoint := cp, bytesNeeded := need, bytesSeen := seen, lower := lo,
               upper := hi } b
      = ([cp * 64 + b % 64], .start) := by
  have h4 : need ≠ 0 := by omega
  have h5 : ¬ b < lo := by omega
  have h6 : ¬ hi < b := by omega
  simp [utf8Step, h3, h4, h5, h6]

theorem utf8Step_more (cp need seen lo hi b : Nat) (h1 : lo ≤ b) (h2 : b ≤ hi)
    (h3 : seen + 1 ≠ need) (h4 : need ≠ 0) :
    utf8Step { codePoint := cp, bytesNeeded := need, bytesSeen := seen, lower := lo,
               upper := hi } b
      = ([], { codePoint := cp * 64 + b % 64, bytesNeeded := need, bytesSeen := seen + 1,
               lower := 128, upper := 191 }) := by
  have h5 : ¬ b < lo := by omega
  have h6 : ¬ hi < b := by omega
  simp [utf8Step, h3, h4, h5, h6]

theorem utf8DecodeFrom_encodeScalar (c : Nat) (hc : isScalar c = true) (rest : List Nat) :
    utf8DecodeFrom .start (utf8EncodeScalar c ++ rest) = c :: utf8DecodeFrom .start rest := by
  simp only [isScalar, Bool.or_eq_true, Bool.and_eq_true, decide_eq_true_eq] at hc
  unfold utf8EncodeScalar
  split_ifs with h1 h2 h3
  · simp only [List.cons_append, List.nil_append, utf8DecodeFrom, utf8Step_start]
    rw [utf8Lead_one c (by omega)]
    rfl
  · simp only [List.cons_append, List.nil_append, utf8DecodeFrom, utf8Step_start]
    rw [utf8Lead_two _ (by omega) (by omega)]
    simp only [List.nil_append]
    rw [utf8Step_last _ _ _ _ _ _ (by omega) (by omega) rfl]
    simp only [List.cons_append, List.nil_append, List.cons.injEq]
    exact ⟨by omega, rfl⟩
  · simp only [List.cons_append, List.nil_append, utf8DecodeFrom, utf8Step_start]
    rw [utf8Lead_three _ (by omega) (by omega)]
    simp only [List.nil_append]
    rw [utf8Step_more _ _ _ _ _ _ (by split_ifs <;> omega) (by split_ifs <;> omega)
      (by omega) (by omega)]
    simp only [List.nil_append]
    rw [utf8Step_last _ _ _ _ _ _ (by omega) (by omega) rfl]
    simp only [List.cons_append, List.nil_append, List.cons.injEq]
    exact ⟨by omega, rfl⟩
  · simp only [List.cons_append, List.nil_append, utf8DecodeFrom, utf8Step_start]
    rw [utf8Lead_four _ (by omega) (by omega)]
    simp only [List.nil_append]
    rw [utf8Step_more _ _ _ _ _ _ (by split_ifs <;> omega) (by split_ifs <;> omega)
      (by omega) (by omega)]
    simp only [List.nil_append]
    rw [utf8Step_more _ _ _ _ _ _ (by omega) (by omega) (by omega) (by omega)]
    simp only [List.nil_append]
    rw [utf8Step_last _ _ _ _ _ _ (by omega) (by omega) rfl]
    simp only [List.cons_append, List.nil_append, List.cons.injEq]
    exact ⟨by omega, rfl⟩

theorem utf8DecodeFrom_encode (cs : List Nat) (hcs : ∀ c ∈ cs, isScalar c = true)
    (rest : List Nat) :
    utf8DecodeFrom .start (utf8Encode cs ++ rest) = cs ++ utf8DecodeFrom .start rest := by
  induction cs with
  | nil => rfl
  | cons c cs ih =>
    have hc := hcs c (List.mem_cons_self _ _)
    have hrest : ∀ c2 ∈ cs, isScalar c2 = true := fun c2 h2 =>
      hcs c2 (List.mem_cons_of_mem _ h2)
    simp only [utf8Encode, List.append_assoc, List.cons_append]
    rw [utf8DecodeFrom_encodeScalar c hc, ih hrest]

theorem utf8Decode_encode (cs : List Nat) (hcs : ∀ c ∈ cs, isScalar c = true) :
    utf8Decode (utf8Encode cs) = cs := by
  have h := utf8DecodeFrom_encode cs hcs []
  simpa [utf8Decode, utf8DecodeFrom, Utf8State.start] using h

theorem utf8EncodeScalar_lt (c : Nat) (hc : isScalar c = true) :
    ∀ b ∈ utf8EncodeScalar c, b < 256 := by
  simp only [isScalar, Bool.or_eq_true, Bool.and_eq_true, decide_eq_true_eq] at hc
  intro b hb
  unfold utf8EncodeScalar at hb
  split_ifs at hb <;> simp at hb <;> omega

theorem utf8Encode_lt (cs : List Nat) (hcs : ∀ c ∈ cs, isScalar c = true) :
    ∀ b ∈ utf8Encode cs, b < 256 := by
  induction cs with
  | nil => simp [utf8Encode]
  | cons c cs ih =>
    intro b hb
    simp only [utf8Encode, List.mem_append] at hb
    rcases hb with hb | hb
    · exact utf8EncodeScalar_lt c (hcs c (List.mem_cons_self _ _)) b hb
    · exact ih (fun c2 h2 => hcs c2 (List.mem_cons_of_mem _ h2)) b hb

theorem isScalar_of_isScalarUnit (u : Nat) :
    isScalar (if isScalarUnit u then u else 65533) = true := by
  by_cases h : isScalarUnit u = true
  · rw [if_pos h]
    simp only [isScalarUnit, isScalar, Bool.or_eq_true, Bool.and_eq_true,
      decide_eq_true_eq] at h ⊢
    omega
  · rw [if_neg h]
    decide

theorem toScalars_isScalar (s : JSString) : ∀ c ∈ toScalars s, isScalar c = true := by
  induction s using toScalars.induct with
  | case1 => simp [toScalars]
  | case2 u =>
    intro c hc
    rw [toScalars, List.mem_singleton] at hc
    subst hc
    exact isScalar_of_isScalarUnit u
  | case3 u v rest h ih =>
    intro c hc
    rw [toScalars, if_pos h, List.mem_cons] at hc
    rcases hc with hc | hc
    · rw [hc]
      simp only [isHighSurrogate, isLowSurrogate, isScalar, Bool.or_eq_true, Bool.and_eq_true,
        decide_eq_true_eq] at h ⊢
      omega
    · exact ih c hc
  | case4 u v rest h ih =>
    intro c hc
    rw [toScalars, if_neg h, List.mem_cons] at hc
    rcases hc with hc | hc
    · subst hc
      exact isScalar_of_isScalarUnit u
    · exact ih c hc

theorem utf16Units_of_isScalarUnit (u : Nat) (h : isScalarUnit u = true) :
    utf16Units u = [u] := by
  simp only [isScalarUnit, Bool.or_eq_true, Bool.and_eq_true, decide_eq_true_eq] at h
  have h2 : u < 65536 := by omega
  simp [utf16Units, h2]

theorem usv_of_isWellFormed (s : JSString) (h : isWellFormed s = true) : usv s = s := by
  unfold usv
  induction s using toScalars.induct with
  | case1 => rfl
  | case2 u =>
    rw [isWellFormed] at h
    rw [toScalars, if_pos h, utf16Encode, utf16Units_of_isScalarUnit u h]
    rfl
  | case3 u v rest hp ih =>
    rw [isWellFormed, if_pos hp] at h
    rw [toScalars, if_pos hp, utf16Encode, ih h, utf16Units]
    simp only [isHighSurrogate, isLowSurrogate, Bool.and_eq_true, decide_eq_true_eq] at hp
    have h2 : ¬ (65536 + (u - 55296) * 1024 + (v - 56320) < 65536) := by omega
    rw [if_neg h2]
    simp only [List.cons_append, List.nil_append, List.cons.injEq, and_true]
    constructor <;> omega
  | case4 u v rest hp ih =>
    rw [isWellFormed, if_neg hp, Bool.and_eq_true] at h
    rw [toScalars, if_neg hp, if_pos h.1, utf16Encode, ih h.2,
      utf16Units_of_isScalarUnit u h.1]
    rfl

theorem toScalars_ascii (s : JSString) (h : ∀ u ∈ s, u < 128) : toScalars s = s := by
  induction s using toScalars.induct with
  | case1 => rfl
  | case2 u =>
    have hu := h u (List.mem_singleton_self u)
    have h2 : isScalarUnit u = true := by
      simp only [isScalarUnit, Bool.or_eq_true, Bool.and_eq_true, decide_eq_true_eq]
      omega
    simp [toScalars, h2]
  | case3 u v rest hp ih =>
    have hu := h u (List.mem_cons_self _ _)
    simp only [isHighSurrogate, isLowSurrogate, Bool.and_eq_true, decide_eq_true_eq] at hp
    omega
  | case4 u v rest hp ih =>
    have hu := h u (List.mem_cons_self _ _)
    have h2 : isScalarUnit u = true := by
      simp only [isScalarUnit, Bool.or_eq_true, Bool.and_eq_true, decide_eq_true_eq]
      omega
    rw [toScalars, if_neg hp, if_pos h2,
      ih (fun w hw => h w (List.mem_cons_of_mem _ hw))]

theorem utf8Encode_ascii (s : List Nat) (h : ∀ u ∈ s, u < 128) : utf8Encode s = s := by
  induction s with
  | nil => rfl
  | cons c cs ih =>
    have hc := h c (List.mem_cons_self _ _)
    simp [utf8Encode, utf8EncodeScalar, hc, ih (fun w hw => h w (List.mem_cons_of_mem _ hw))]

/-- The characters the serializer writes for names and values. -/
theorem urlencodeBytes_chars (bs : List Nat) (hbs : ∀ b ∈ bs, b < 256) :
    ∀ b ∈ urlencodeBytes bs, isUrlencodedSafe b = true ∨ b = 43 ∨ b = 37 := by
  induction bs with
  | nil => simp [urlencodeBytes]
  | cons x xs ih =>
    have hx := hbs x (List.mem_cons_self _ _)
    intro b hb
    simp only [urlencodeBytes, List.mem_append] at hb
    rcases hb with hb | hb
    · unfold urlencodeByte at hb
      split_ifs at hb with h1 h2
      · simp at hb; right; left; exact hb
      · simp at hb; subst hb; left; exact h2
      · simp only [List.mem_cons, List.mem_singleton, List.not_mem_nil, or_false] at hb
        rcases hb with hb | hb | hb
        · right; right; exact hb
        · left
          subst hb
          have : x / 16 < 16 := by omega
          generalize x / 16 = n at this
          interval_cases n <;> decide
        · left
          subst hb
          have : x % 16 < 16 := by omega
          generalize x % 16 = n at this
          interval_cases n <;> decide
    · exact ih (fun b2 h2 => hbs b2 (List.mem_cons_of_mem _ h2)) b hb

theorem percentDecode_cons_of_ne (b : Nat) (t : List Nat) (hb : b ≠ 37) :
    percentDecode (b :: t) = b :: percentDecode t := by
  match t with
  | [] => rfl
  | [c] => rfl
  | c :: d :: r => simp [percentDecode, hb]

theorem hexValue_hexDigit (n : Nat) (h : n < 16) :
    isHexDigit (hexDigit n) = true ∧ hexValue (hexDigit n) = n ∧ hexDigit n ≠ 43 := by
  interval_cases n <;> decide

theorem percentDecode_urlencodeBytes (bs : List Nat) (hbs : ∀ b ∈ bs, b < 256) :
    percentDecode (plusToSpace (urlencodeBytes bs)) = bs := by
  induction bs with
  | nil => rfl
  | cons x xs ih =>
    have hx := hbs x (List.mem_cons_self _ _)
    have ih2 := ih (fun b2 h2 => hbs b2 (List.mem_cons_of_mem _ h2))
    unfold plusToSpace at ih2 ⊢
    simp only [urlencodeBytes, List.map_append]
    unfold urlencodeByte
    split_ifs with h1 h2
    · subst h1
      simp only [List.map_cons, List.map_nil, if_true, List.cons_append, List.nil_append]
      rw [percentDecode_cons_of_ne _ _ (by decide), ih2]
    · have h3 : x ≠ 43 := by
        intro e; subst e; exact absurd h2 (by decide)
      have h4 : x ≠ 37 := by
        intro e; subst e; exact absurd h2 (by decide)
      simp only [List.map_cons, List.map_nil, h3, if_false, List.cons_append, List.nil_append]
      rw [percentDecode_cons_of_ne _ _ h4, ih2]
    · obtain ⟨a1, a2, a3⟩ := hexValue_hexDigit (x / 16) (by omega)
      obtain ⟨b1, b2, b3⟩ := hexValue_hexDigit (x % 16) (by omega)
      simp only [List.map_cons, List.map_nil, a3, b3, if_false, List.cons_append,
        List.nil_append]
      have h5 : ((37 : Nat) = 43) = False := by simp
      simp only [h5, if_false]
      simp only [percentDecode, a1, b1, a2, b2, decide_True, Bool.and_self, if_true, ih2]
      congr 1
      omega

theorem splitOn_of_not_mem (d : Nat) (a : List Nat) (h : d ∉ a) : splitOn d a = [a] := by
  induction a with
  | nil => rfl
  | cons b rest ih =>
    have hb : b ≠ d := fun e => h (by simp [e])
    have hrest : d ∉ rest := fun e => h (List.mem_cons_of_mem _ e)
    simp [splitOn, hb, ih hrest]

theorem splitOn_append (d : Nat) (a rest : List Nat) (h : d ∉ a) :
    splitOn d (a ++ d :: rest) = a :: splitOn d rest := by
  induction a with
  | nil => simp [splitOn]
  | cons b t ih =>
    have hb : b ≠ d := fun e => h (by simp [e])
    have ht : d ∉ t := fun e => h (List.mem_cons_of_mem _ e)
    simp [splitOn, hb, ih ht]

theorem urlencodeString_chars (cs : List Nat) (hcs : ∀ c ∈ cs, isScalar c = true) :
    ∀ b ∈ urlencodeString cs, isUrlencodedSafe b = true ∨ b = 43 ∨ b = 37 :=
  urlencodeBytes_chars _ (utf8Encode_lt cs hcs)

theorem urlencodeString_not_mem (cs : List Nat) (hcs : ∀ c ∈ cs, isScalar c = true) (d : Nat)
    (h1 : isUrlencodedSafe d = false) (h2 : d ≠ 43) (h3 : d ≠ 37) :
    d ∉ urlencodeString cs := by
  intro hd
  rcases urlencodeString_chars cs hcs d hd with h | h | h
  · rw [h1] at h; exact absurd h (by decide)
  · exact h2 h
  · exact h3 h

theorem urldecodeString_encode (cs : List Nat) (hcs : ∀ c ∈ cs, isScalar c = true) :
    urldecodeString (urlencodeString cs) = cs := by
  unfold urldecodeString urlencodeString
  rw [percentDecode_urlencodeBytes _ (utf8Encode_lt cs hcs), utf8Decode_encode cs hcs]

theorem urldecodePair_encode (n v : List Nat) (hn : ∀ c ∈ n, isScalar c = true)
    (hv : ∀ c ∈ v, isScalar c = true) :
    urldecodePair (urlencodeString n ++ [61] ++ urlencodeString v) = (n, v) := by
  have h61 : ∀ a ∈ urlencodeString n, (a != 61) = true := by
    intro a ha
    have : a ≠ 61 := fun e =>
      urlencodeString_not_mem n hn 61 (by decide) (by decide) (by decide) (e ▸ ha)
    simpa using this
  unfold urldecodePair
  rw [List.append_assoc, List.takeWhile_append_of_pos h61, List.dropWhile_append_of_pos h61]
  simp [urldecodeString_encode n hn, urldecodeString_encode v hv]

theorem urlencodedSerialize_cons (p q : List Nat × List Nat)
    (rest : List (List Nat × List Nat)) :
    urlencodedSerialize (p :: q :: rest)
      = (urlencodeString p.1 ++ [61] ++ urlencodeString p.2) ++
          38 :: urlencodedSerialize (q :: rest) := by
  obtain ⟨n, v⟩ := p
  simp [urlencodedSerialize]

theorem urlencodedSerialize_single (p : List Nat × List Nat) :
    urlencodedSerialize [p] = urlencodeString p.1 ++ [61] ++ urlencodeString p.2 := by
  obtain ⟨n, v⟩ := p
  simp [urlencodedSerialize]

theorem piece_not_mem (n v : List Nat) (hn : ∀ c ∈ n, isScalar c = true)
    (hv : ∀ c ∈ v, isScalar c = true) (d : Nat)
    (h1 : isUrlencodedSafe d = false) (h2 : d ≠ 43) (h3 : d ≠ 37) (h4 : d ≠ 61) :
    d ∉ urlencodeString n ++ [61] ++ urlencodeString v := by
  simp only [List.mem_append, List.mem_singleton, not_or]
  exact ⟨⟨urlencodeString_not_mem n hn d h1 h2 h3, h4⟩,
    urlencodeString_not_mem v hv d h1 h2 h3⟩

theorem urlencodedSerialize_not_mem (ps : List (List Nat × List Nat)) (hps : ScalarPairs ps)
    (d : Nat) (h1 : isUrlencodedSafe d = false) (h2 : d ≠ 43) (h3 : d ≠ 37) (h4 : d ≠ 61)
    (h5 : d ≠ 38) :
    d ∉ urlencodedSerialize ps := by
  induction ps using urlencodedSerialize.induct with
  | case1 => simp [urlencodedSerialize]
  | case2 n v =>
    rw [urlencodedSerialize_single]
    exact piece_not_mem n v (hps _ (List.mem_singleton_self _)).1
      (hps _ (List.mem_singleton_self _)).2 d h1 h2 h3 h4
  | case3 n v q rest ih =>
    rw [urlencodedSerialize_cons, List.mem_append, List.mem_cons]
    have hp := hps _ (List.mem_cons_self _ _)
    have hrest : ScalarPairs (q :: rest) := fun x hx => hps x (List.mem_cons_of_mem _ hx)
    intro h
    rcases h with h | h | h
    · exact piece_not_mem n v hp.1 hp.2 d h1 h2 h3 h4 h
    · exact h5 h
    · exact ih hrest h

theorem urlencodedSerialize_ascii (ps : List (List Nat × List Nat)) (hps : ScalarPairs ps) :
    ∀ b ∈ urlencodedSerialize ps, b < 128 := by
  intro b hb
  by_contra hlt
  have h1 : isUrlencodedSafe b = false := by
    simp only [isUrlencodedSafe, Bool.or_eq_false_iff, Bool.and_eq_false_iff,
      decide_eq_false_iff_not]
    omega
  exact urlencodedSerialize_not_mem ps hps b h1 (by omega) (by omega) (by omega) (by omega) hb

theorem urlencodedParse_serialize (ps : List (List Nat × List Nat)) (hps : ScalarPairs ps) :
    urlencodedParse (urlencodedSerialize ps) = ps := by
  induction ps using urlencodedSerialize.induct with
  | case1 => rfl
  | case2 n v =>
    have hp := hps _ (List.mem_singleton_self _)
    have h38 := piece_not_mem n v hp.1 hp.2 38 (by decide) (by decide) (by decide) (by decide)
    unfold urlencodedParse
    rw [urlencodedSerialize_single, splitOn_of_not_mem 38 _ h38]
    have e := urldecodePair_encode n v hp.1 hp.2
    simp only [List.append_assoc, List.singleton_append] at e
    simp [e]
  | case3 n v q rest ih =>
    have hp := hps _ (List.mem_cons_self _ _)
    have hrest : ScalarPairs (q :: rest) := fun x hx => hps x (List.mem_cons_of_mem _ hx)
    have h38 := piece_not_mem n v hp.1 hp.2 38 (by decide) (by decide) (by decide) (by decide)
    have ih2 := ih hrest
    unfold urlencodedParse at ih2 ⊢
    rw [urlencodedSerialize_cons, splitOn_append 38 _ _ h38]
    have e := urldecodePair_encode n v hp.1 hp.2
    simp only [List.append_assoc, List.singleton_append] at e
    simp only [List.filter_cons, List.map_cons]
    simp [e, ih2]

theorem dropQuestionMark_of_not_mem (s : JSString) (h : 63 ∉ s) : dropQuestionMark s = s := by
  cases s with
  | nil => rfl
  | cons u rest =>
    have hu : u ≠ 63 := fun e => h (by simp [e])
    simp [dropQuestionMark, hu]

/-- Parsing the serialization of a `URLSearchParams` object gives back the
object. -/
theorem ofString_toString (p : URLSearchParams) (hp : ScalarPairs p.list) :
    URLSearchParams.ofString p.toString = p := by
  have h63 := urlencodedSerialize_not_mem p.list hp 63 (by decide) (by decide) (by decide)
    (by decide) (by decide)
  have hascii := urlencodedSerialize_ascii p.list hp
  unfold URLSearchParams.ofString URLSearchParams.toString
  rw [dropQuestionMark_of_not_mem _ h63, toScalars_ascii _ hascii, utf8Encode_ascii _ hascii,
    urlencodedParse_serialize _ hp]

theorem scalarPairs_ofRecord (record : List (JSString × JSString)) :
    ScalarPairs (URLSearchParams.ofRecord record).list := by
  intro p hp
  simp only [URLSearchParams.ofRecord, List.mem_map] at hp
  obtain ⟨kv, _, rfl⟩ := hp
  exact ⟨toScalars_isScalar _, toScalars_isScalar _⟩

theorem urlQuery_append (a q : JSString) (ha : 63 ∉ a) (hq : 35 ∉ q) :
    urlQuery (a ++ 63 :: q) = q := by
  have h1 : ∀ u ∈ a, (u != 63) = true := by
    intro u hu
    have : u ≠ 63 := fun e => ha (e ▸ hu)
    simpa using this
  have h2 : ∀ u ∈ q, (u != 35) = true := by
    intro u hu
    have : u ≠ 35 := fun e => hq (e ▸ hu)
    simpa using this
  unfold urlQuery
  rw [List.dropWhile_append_of_pos h1]
  simp only [List.dropWhile_cons, bne_self_eq_false, Bool.false_eq_true, if_false,
    List.drop_succ_cons, List.drop_zero]
  exact List.takeWhile_eq_self_iff.mpr h2

/-! ## SSO helper -/

theorem ofRecord_append (record : List (JSString × JSString)) (name value : JSString) :
    (URLSearchParams.ofRecord record).append name value
      = URLSearchParams.ofRecord (record ++ [(name, value)]) := by
  simp [URLSearchParams.ofRecord, URLSearchParams.append]

theorem login_href (sdk : CodeManSSO) (cid : JSString) (hcid : sdk.config.clientId = some cid)
    (hne : cid ≠ []) (state : Option JSString) (w : Window) :
    (sdk.login state w).location.href
      = sdk.AUTH_BASE_URL ++ js "/oauth/authorize?"
          ++ formUrlencode (loginRecord cid sdk.config state) := by
  have ht : truthyOpt (some cid) = true := by
    cases cid with
    | nil => exact absurd rfl hne
    | cons u rest => rfl
  unfold CodeManSSO.login
  rw [hcid, ht]
  cases state with
  | none => rfl
  | some s =>
    by_cases hs : s.truthy = true
    · simp only [hs, if_true, stateRecord, loginRecord, formUrlencode, ofRecord_append]
      rfl
    · simp only [hs, stateRecord, loginRecord, formUrlencode]
      rfl

theorem authBase_no_question_mark (origin : JSString) :
    63 ∉ AUTH_BASE_URL origin ++ js "/oauth/authorize" := by
  unfold AUTH_BASE_URL
  split_ifs <;> decide

theorem urlQuery_login (origin : JSString) (record : List (JSString × JSString)) :
    urlQuery (AUTH_BASE_URL origin ++ js "/oauth/authorize?" ++ formUrlencode record)
      = formUrlencode record := by
  have e : js "/oauth/authorize?" = js "/oauth/authorize" ++ [63] := by decide
  have h35 : 35 ∉ formUrlencode record :=
    urlencodedSerialize_not_mem _ (scalarPairs_ofRecord record) 35 (by decide) (by decide)
      (by decide) (by decide) (by decide)
  rw [e, ← List.append_assoc, List.append_assoc _ [63], List.singleton_append]
  exact urlQuery_append _ _ (authBase_no_question_mark origin) h35

theorem ofString_formUrlencode (record : List (JSString × JSString)) :
    URLSearchParams.ofString (formUrlencode record) = URLSearchParams.ofRecord record :=
  ofString_toString _ (scalarPairs_ofRecord record)

/-- C1, amended. With a falsy `config.clientId`, `login` leaves
`window.location` as it is.  Otherwise it sets `window.location.href` to
`AUTH_BASE_URL`, then "/oauth/authorize?", then the form-urlencoding of the
parameters `client_id` = `config.clientId`, `redirect_uri` =
`config.redirectUri`, `response_type` = `config.responseType`, in this order,
followed by the state if one is given; that text is the query of the URL.
Decoding the query gives these three parameters first, each value being the
configured one with every unpaired surrogate replaced by U+FFFD, hence the
configured values themselves when these hold no unpaired surrogate.  The
`responseType` of the helper is "code" after any calls of `init` none of
which is given a `responseType`. -/
theorem login_spec (location0 : Location) (config : Config) (state : Option JSString)
    (w : Window) :
    (truthyOpt config.clientId = false →
        (CodeManSSO.login { CodeManSSO.load location0 with config := config } state w).location
          = w.location)
    ∧ (∀ cid : JSString, config.clientId = some cid → cid ≠ [] →
        (CodeManSSO.login { CodeManSSO.load location0 with config := config } state w
            ).location.href
          = AUTH_BASE_URL location0.origin ++ js "/oauth/authorize?" ++
              formUrlencode
                ([(js "client_id", cid), (js "redirect_uri", config.redirectUri),
                  (js "response_type", config.responseType)] ++ stateRecord state)
        ∧ urlQuery (CodeManSSO.login { CodeManSSO.load location0 with config := config }
              state w).location.href
          = formUrlencode
              ([(js "client_id", cid), (js "redirect_uri", config.redirectUri),
                (js "response_type", config.responseType)] ++ stateRecord state)
        ∧ ((URLSearchParams.ofString
              (urlQuery (CodeManSSO.login
                { CodeManSSO.load location0 with config := config } state w
                ).location.href)).entries.take 3
            = [(js "client_id", usv cid), (js "redirect_uri", usv config.redirectUri),
               (js "response_type", usv config.responseType)])
        ∧ (isWellFormed cid = true → isWellFormed config.redirectUri = true →
            isWellFormed config.responseType = true →
            (URLSearchParams.ofString
              (urlQuery (CodeManSSO.login
                { CodeManSSO.load location0 with config := config } state w
                ).location.href)).entries.take 3
            = [(js "client_id", cid), (js "redirect_uri", config.redirectUri),
               (js "response_type", config.responseType)]))
    ∧ (∀ (calls : List Options) (w0 : Window), (∀ o ∈ calls, o.responseType = none) →
        ((CodeManSSO.load location0).initAll calls w0).1.config.responseType = js "code") := by
  refine ⟨?_, ?_, ?_⟩
  · intro h
    simp [CodeManSSO.login, h]
  · intro cid hcid hne
    have hhref := login_href { CodeManSSO.load location0 with config := config } cid hcid hne
      state w
    have hhref2 :
        (CodeManSSO.login { CodeManSSO.load location0 with config := config } state w
            ).location.href
          = AUTH_BASE_URL location0.origin ++ js "/oauth/authorize?" ++
              formUrlencode
                ([(js "client_id", cid), (js "redirect_uri", config.redirectUri),
                  (js "response_type", config.responseType)] ++ stateRecord state) := hhref
    have hentries :
        (URLSearchParams.ofString
          (urlQuery (CodeManSSO.login
            { CodeManSSO.load location0 with config := config } state w
            ).location.href)).entries.take 3
          = [(js "client_id", usv cid), (js "redirect_uri", usv config.redirectUri),
             (js "response_type", usv config.responseType)] := by
      rw [hhref2, urlQuery_login, ofString_formUrlencode]
      have e1 : utf16Encode (toScalars (js "client_id")) = js "client_id" := by decide
      have e2 : utf16Encode (toScalars (js "redirect_uri")) = js "redirect_uri" := by decide
      have e3 : utf16Encode (toScalars (js "response_type")) = js "response_type" := by decide
      simp [URLSearchParams.entries, URLSearchParams.ofRecord, usv, e1, e2, e3]
    refine ⟨hhref2, ?_, hentries, ?_⟩
    · rw [hhref2, urlQuery_login]
    · intro h1 h2 h3
      rw [hentries, usv_of_isWellFormed _ h1, usv_of_isWellFormed _ h2,
        usv_of_isWellFormed _ h3]
  · intro calls
    suffices hgen : ∀ (sdk : CodeManSSO) (w0 : Window), sdk.config.responseType = js "code" →
        (∀ o ∈ calls, o.responseType = none) →
        (sdk.initAll calls w0).1.config.responseType = js "code" by
      intro w0 h
      exact hgen (CodeManSSO.load location0) w0 rfl h
    induction calls with
    | nil => intro sdk w0 h _; exact h
    | cons o rest ih =>
      intro sdk w0 h hall
      have ho := hall o (List.mem_cons_self _ _)
      simp only [CodeManSSO.initAll]
      apply ih
      · simp only [CodeManSSO.init]
        split_ifs <;> simp [Config.merge, ho, h]
      · exact fun o2 h2 => hall o2 (List.mem_cons_of_mem _ h2)

/-- C1, amended, on the sample helper, whose client id is "app1": the first
three parameters decoded from the query of the authorize URL. -/
theorem login_spec_witness :
    (URLSearchParams.ofString
        (urlQuery (CodeManSSO.login
          { CodeManSSO.load sampleLocation with config := sampleSDK.config }
          (some (js "xyz")) sampleWindow).location.href)).entries.take 3
      = [(js "client_id", js "app1"), (js "redirect_uri", sampleSDK.config.redirectUri),
         (js "response_type", sampleSDK.config.responseType)] :=
  ((login_spec sampleLocation sampleSDK.config (some (js "xyz")) sampleWindow).2.1
    (js "app1") rfl (by decide)).2.2.2 (by decide) (by decide) (by decide)

set_option maxRecDepth 100000 in
/-- C1 as stated fails for a config value that holds an unpaired surrogate:
with the client id "app1" and the redirect URI of the two code units 'h' and
U+D83D, the `redirect_uri` of the query is 'h' followed by U+FFFD, not the
configured value. -/
theorem login_surrogate_config :
    (URLSearchParams.ofString
        (urlQuery (CodeManSSO.login
          { CodeManSSO.load sampleLocation with
            config := { clientId := some (js "app1"), redirectUri := [104, 55357],
                        responseType := js "code", debug := false } }
          none sampleWindow).location.href)).entries.take 3
      = [(js "client_id", js "app1"), (js "redirect_uri", [104, 65533]),
         (js "response_type", js "code")]
    ∧ ([104, 65533] : JSString) ≠ [104, 55357] := by
  refine ⟨by decide, by decide⟩

/-- C2, amended. For every non-empty state string without unpaired
surrogates, and a truthy `config.clientId`, decoding the query of the URL that
`login` navigates to gives exactly one parameter named 'state', and its value
is the state string, code unit for code unit. -/
theorem login_state_roundtrip (location0 : Location) (config : Config) (s : JSString)
    (w : Window) (hcid : truthyOpt config.clientId = true) (hs : s ≠ [])
    (hwf : isWellFormed s = true) :
    (URLSearchParams.ofString
        (urlQuery (CodeManSSO.login { CodeManSSO.load location0 with config := config }
          (some s) w).location.href)).getAll (js "state") = [s] := by
  cases hc : config.clientId with
  | none => rw [hc] at hcid; exact absurd hcid (by decide)
  | some cid =>
    have hne : cid ≠ [] := by
      intro e
      rw [hc, e] at hcid
      exact absurd hcid (by decide)
    have hhref := login_href { CodeManSSO.load location0 with config := config } cid hc hne
      (some s) w
    have hhref2 :
        (CodeManSSO.login { CodeManSSO.load location0 with config := config } (some s) w
            ).location.href
          = AUTH_BASE_URL location0.origin ++ js "/oauth/authorize?" ++
              formUrlencode (loginRecord cid config (some s)) := hhref
    have hst : s.truthy = true := by
      cases s with
      | nil => exact absurd rfl hs
      | cons u rest => rfl
    rw [hhref2, urlQuery_login, ofString_formUrlencode]
    have e1 : (toScalars (js "client_id") = toScalars (js "state")) = False := by
      simp; decide
    have e2 : (toScalars (js "redirect_uri") = toScalars (js "state")) = False := by
      simp; decide
    have e3 : (toScalars (js "response_type") = toScalars (js "state")) = False := by
      simp; decide
    have e4 := usv_of_isWellFormed s hwf
    unfold usv at e4
    simp [URLSearchParams.getAll, URLSearchParams.ofRecord, loginRecord, stateRecord, hst,
      List.filter_cons, e1, e2, e3, e4]

/-- C2, amended, for a state holding a space, an ampersand and a surrogate
pair. -/
theorem login_state_roundtrip_witness :
    (URLSearchParams.ofString
        (urlQuery (CodeManSSO.login
          { CodeManSSO.load sampleLocation with config := sampleSDK.config }
          (some [115, 32, 38, 55357, 56832]) sampleWindow).location.href)).getAll (js "state")
      = [[115, 32, 38, 55357, 56832]] :=
  login_state_roundtrip sampleLocation sampleSDK.config [115, 32, 38, 55357, 56832]
    sampleWindow (by decide) (by decide) (by decide)

set_option maxRecDepth 100000 in
/-- C2 as stated fails for two state strings.  For the empty string `login`
adds no state parameter, so decoding the query gives none.  For the string of
the single unpaired surrogate U+D83D the decoded state is U+FFFD. -/
theorem login_state_not_roundtrip :
    truthyOpt sampleSDK.config.clientId = true
    ∧ (URLSearchParams.ofString
        (urlQuery (CodeManSSO.login sampleSDK (some (js "")) sampleWindow).location.href)
        ).getAll (js "state") = []
    ∧ (URLSearchParams.ofString
        (urlQuery (CodeManSSO.login sampleSDK (some [55357]) sampleWindow).location.href)
        ).getAll (js "state") = [[65533]] := by
  refine ⟨by decide, by decide, by decide⟩

theorem settle_requests (call : FetchCall) (failure : JSString) (outcome : Option Response) :
    (settle call failure outcome).requests = [call] := by
  unfold settle
  cases outcome with
  | none => rfl
  | some response =>
    obtain ⟨ok, json⟩ := response
    cases ok <;> cases json <;> rfl

/-- C3. The one request of `exchangeToken(code, clientSecret)` is a POST to
`API_BASE_URL` + "/oauth/token" whose body is the JSON text of an object with
exactly the five properties `grant_type`, `code`, `client_id`,
`client_secret`, `redirect_uri`: the literal "authorization_code", the two
arguments, and `config.clientId` and `config.redirectUri`, none of them
`undefined`.  When `login` navigates, the `client_id` and `redirect_uri`
it form-urlencodes into the authorize URL are these same two values. -/
theorem exchangeToken_request (location0 : Location) (config : Config) (J : JSONImpl)
    (fetch : Fetch) (code clientSecret : JSString) :
    (CodeManSSO.exchangeToken { CodeManSSO.load location0 with config := config } J fetch
        code clientSecret).requests
      = [{ url := API_BASE_URL location0.origin ++ js "/oauth/token",
           method := some (js "POST"),
           headers := [(js "Content-Type", js "application/json")],
           body := some (J.stringify (.obj
             [(js "grant_type", .str (js "authorization_code")),
              (js "code", .str code),
              (js "client_id", JSVal.ofItem config.clientId),
              (js "client_secret", .str clientSecret),
              (js "redirect_uri", .str config.redirectUri)])) }]
    ∧ JSVal.ofItem config.clientId ≠ .undefined
    ∧ (∀ (cid : JSString) (state : Option JSString) (w : Window),
        JSVal.ofItem config.clientId = .str cid → cid ≠ [] →
        (CodeManSSO.login { CodeManSSO.load location0 with config := config } state w
            ).location.href
          = AUTH_BASE_URL location0.origin ++ js "/oauth/authorize?" ++
              formUrlencode
                ([(js "client_id", cid), (js "redirect_uri", config.redirectUri),
                  (js "response_type", config.responseType)] ++ stateRecord state)) := by
  refine ⟨?_, ?_, ?_⟩
  · unfold CodeManSSO.exchangeToken
    rw [settle_requests]
    rfl
  · cases config.clientId <;> simp [JSVal.ofItem]
  · intro cid state w hcid hne
    have hc : config.clientId = some cid := by
      cases h : config.clientId with
      | none => rw [h] at hcid; simp [JSVal.ofItem] at hcid
      | some c =>
        rw [h] at hcid
        simp only [JSVal.ofItem, JSVal.str.injEq] at hcid
        rw [hcid]
    exact login_href { CodeManSSO.load location0 with config := config } cid hc hne state w

/-- What `exchangeToken` resolves with is the JSON of the token response,
whatever it holds; no user info is fetched by it. -/
theorem exchangeToken_result (sdk : CodeManSSO) (J : JSONImpl) (fetch : Fetch)
    (code clientSecret : JSString) (response : Response)
    (hresp : fetch (tokenCall sdk J code clientSecret) = some response) (v : JSVal) :
    (sdk.exchangeToken J fetch code clientSecret).result = .ok v
      ↔ (response.ok = true ∧ response.json = some v) := by
  unfold CodeManSSO.exchangeToken settle
  rw [hresp]
  obtain ⟨ok, json⟩ := response
  cases ok <;> cases json <;> simp

/-- C3 on the sample helper: the `client_id` of the authorize URL is the one
of the token request. -/
theorem exchangeToken_request_witness :
    (CodeManSSO.login { CodeManSSO.load sampleLocation with config := sampleSDK.config }
        none sampleWindow).location.href
      = AUTH_BASE_URL sampleLocation.origin ++ js "/oauth/authorize?" ++
          formUrlencode
            ([(js "client_id", js "app1"), (js "redirect_uri", sampleSDK.config.redirectUri),
              (js "response_type", sampleSDK.config.responseType)] ++ stateRecord none) :=
  (exchangeToken_request sampleLocation sampleSDK.config sampleJSON (fun _ => none)
    (js "c0de") (js "s3cret")).2.2 (js "app1") none sampleWindow rfl (by decide)

/-- C5, amended. The one request of `getUserInfo(accessToken)` goes to
`API_BASE_URL` + "/oauth/userinfo" with the header `Authorization` equal to
"Bearer " followed by `accessToken`.  For every response, the call resolves
with a value exactly when the response is ok and `response.json()` resolves
with that value; on a response that is not ok it rejects with the error
'Failed to fetch user info'; when `fetch` itself rejects, so does the
call. -/
theorem getUserInfo_spec (location0 : Location) (config : Config) (fetch : Fetch)
    (accessToken : JSString) :
    (CodeManSSO.getUserInfo { CodeManSSO.load location0 with config := config } fetch
        accessToken).requests
      = [{ url := API_BASE_URL location0.origin ++ js "/oauth/userinfo",
           method := none,
           headers := [(js "Authorization", js "Bearer " ++ accessToken)],
           body := none }]
    ∧ (∀ response : Response,
        fetch (userInfoCall { CodeManSSO.load location0 with config := config } accessToken)
          = some response →
        (∀ v : JSVal,
          (CodeManSSO.getUserInfo { CodeManSSO.load location0 with config := config } fetch
              accessToken).result = .ok v
            ↔ (response.ok = true ∧ response.json = some v))
        ∧ (response.ok = false →
            (CodeManSSO.getUserInfo { CodeManSSO.load location0 with config := config } fetch
              accessToken).result = .error (.error (js "Failed to fetch user info"))))
    ∧ (fetch (userInfoCall { CodeManSSO.load location0 with config := config } accessToken)
          = none →
        (CodeManSSO.getUserInfo { CodeManSSO.load location0 with config := config } fetch
          accessToken).result = .error .platform) := by
  refine ⟨?_, ?_, ?_⟩
  · unfold CodeManSSO.getUserInfo
    rw [settle_requests]
    rfl
  · intro response hresp
    unfold CodeManSSO.getUserInfo settle
    rw [hresp]
    obtain ⟨ok, json⟩ := response
    cases ok <;> cases json <;> simp
  · intro hnone
    unfold CodeManSSO.getUserInfo settle
    rw [hnone]

/-- C5, amended, on a 401 response: the call rejects with the error of the
helper. -/
theorem getUserInfo_spec_witness :
    (CodeManSSO.getUserInfo
        { CodeManSSO.load sampleLocation with config := sampleSDK.config }
        (fun _ => some { ok := false, json := some (.obj [(js "error", .str (js "invalid_token"))]) })
        (js "tok")).result = .error (.error (js "Failed to fetch user info")) :=
  ((getUserInfo_spec sampleLocation sampleSDK.config
    (fun _ => some { ok := false, json := some (.obj [(js "error", .str (js "invalid_token"))]) })
    (js "tok")).2.1 _ rfl).2 rfl

/-- C5 as stated fails on a response that is ok but whose body is no JSON:
`response.json()` rejects, and so does the call. -/
theorem getUserInfo_ok_but_rejects :
    (CodeManSSO.getUserInfo sampleSDK (fun _ => some { ok := true, json := none })
        (js "tok")).result = .error .platform := by
  rfl

/-! ## Authorization server: single use of a code -/

theorem redeem_cases (store : CodeStore) (code : JSString) (now : Nat) :
    (∃ err, store.redeem code now = (.error err, store))
      ∨ (∃ record store2, store.redeem code now = (.ok record, store2)
          ∧ store2.isConsumed code = true
          ∧ ∀ k, k ≠ code → store2 k = store k) := by
  unfold CodeStore.redeem
  cases hs : store code with
  | none => left; exact ⟨_, rfl⟩
  | some record =>
    simp only []
    split_ifs with he hc
    · left; exact ⟨_, rfl⟩
    · left; exact ⟨_, rfl⟩
    · right
      refine ⟨_, _, rfl, ?_, ?_⟩
      · simp [CodeStore.isConsumed]
      · intro k hk
        simp [hk]

theorem redeem_of_isConsumed (store : CodeStore) (code : JSString) (now : Nat)
    (h : store.isConsumed code = true) :
    ∃ err, store.redeem code now = (.error err, store) := by
  unfold CodeStore.redeem
  unfold CodeStore.isConsumed at h
  cases hs : store code with
  | none => exact ⟨_, rfl⟩
  | some record =>
    rw [hs] at h
    simp only [] at h ⊢
    split_ifs with he
    · exact ⟨_, rfl⟩
    · exact ⟨_, rfl⟩

theorem tokenEndpoint_cases (registry : ClientRegistry) (tokenTtl : Nat)
    (store : CodeStore) (req : TokenRequest) (now : Nat) (entropy : JSString) :
    tokenEndpoint registry tokenTtl store req now entropy
        = (.error (replayError registry req), store)
      ∨ ((tokenEndpoint registry tokenTtl store req now entropy).2.isConsumed req.code = true
          ∧ ∀ k, k ≠ req.code →
              (tokenEndpoint registry tokenTtl store req now entropy).2 k = store k) := by
  unfold tokenEndpoint replayError
  split_ifs with hg hv
  · left; rfl
  · left; rfl
  · rcases redeem_cases store req.code now with ⟨err, h⟩ | ⟨record, store2, h, h2, h3⟩
    · left; rw [h]
    · right
      rw [h]
      simp only []
      split_ifs <;> exact ⟨h2, h3⟩

theorem tokenEndpoint_dichotomy (registry : ClientRegistry) (tokenTtl : Nat)
    (store : CodeStore) (req : TokenRequest) (now : Nat) (entropy : JSString) :
    tokenEndpoint registry tokenTtl store req now entropy
        = (.error (replayError registry req), store)
      ∨ (tokenEndpoint registry tokenTtl store req now entropy).2.isConsumed req.code
          = true := by
  rcases tokenEndpoint_cases registry tokenTtl store req now entropy with h | h
  · left; exact h
  · right; exact h.1

theorem tokenEndpoint_of_isConsumed (registry : ClientRegistry) (tokenTtl : Nat)
    (store : CodeStore) (req : TokenRequest) (now : Nat) (entropy : JSString)
    (h : store.isConsumed req.code = true) :
    tokenEndpoint registry tokenTtl store req now entropy
      = (.error (replayError registry req), store) := by
  unfold tokenEndpoint replayError
  split_ifs with hg hv
  · rfl
  · rfl
  · obtain ⟨err, h2⟩ := redeem_of_isConsumed store req.code now h
    rw [h2]

theorem isConsumed_storeAfter (registry : ClientRegistry) (codeTtl tokenTtl : Nat)
    (store : CodeStore) (e : ServerEvent) (code : JSString)
    (h : store.isConsumed code = true) :
    (e.storeAfter registry codeTtl tokenTtl store).isConsumed code = true := by
  cases e with
  | issue fresh clientId redirectUri userId scope now =>
    simp only [ServerEvent.storeAfter, CodeStore.issue]
    cases hf : store fresh with
    | some r => exact h
    | none =>
      have hne : code ≠ fresh := by
        intro e2
        rw [e2] at h
        simp [CodeStore.isConsumed, hf] at h
      simpa [CodeStore.isConsumed, hne] using h
  | exchange req now entropy =>
    simp only [ServerEvent.storeAfter]
    by_cases hc : req.code = code
    · rw [tokenEndpoint_of_isConsumed registry tokenTtl store req now entropy (hc ▸ h)]
      exact h
    · rcases tokenEndpoint_cases registry tokenTtl store req now entropy with h2 | h2
      · rw [h2]; exact h
      · have hc2 : code ≠ req.code := fun e2 => hc e2.symm
        unfold CodeStore.isConsumed at h ⊢
        rw [h2.2 code hc2]
        exact h

theorem isConsumed_storeAfterAll (registry : ClientRegistry) (codeTtl tokenTtl : Nat)
    (events : List ServerEvent) (store : CodeStore) (code : JSString)
    (h : store.isConsumed code = true) :
    (storeAfterAll registry codeTtl tokenTtl store events).isConsumed code = true := by
  induction events generalizing store with
  | nil => exact h
  | cons e rest ih =>
    exact ih _ (isConsumed_storeAfter registry codeTtl tokenTtl store e code h)

theorem exchanges_of_isConsumed (registry : ClientRegistry) (codeTtl tokenTtl : Nat)
    (events : List ServerEvent) (store : CodeStore) (code : JSString)
    (h : store.isConsumed code = true) :
    ∀ p ∈ exchanges registry codeTtl tokenTtl store events, p.1.code = code →
      p.2 = .error (replayError registry p.1) := by
  induction events generalizing store with
  | nil => intro p hp; simp [exchanges] at hp
  | cons e rest ih =>
    cases e with
    | issue fresh clientId redirectUri userId scope now =>
      simp only [exchanges]
      exact ih _ (isConsumed_storeAfter registry codeTtl tokenTtl store _ code h)
    | exchange req now entropy =>
      intro p hp hcode
      simp only [exchanges, List.mem_cons] at hp
      rcases hp with hp | hp
      · subst hp
        have hcode2 : req.code = code := hcode
        rw [tokenEndpoint_of_isConsumed registry tokenTtl store req now entropy
          (hcode2 ▸ h)]
      · exact ih _ (isConsumed_storeAfter registry codeTtl tokenTtl store
          (.exchange req now entropy) code h) p hp hcode

theorem storeAfterAll_append (registry : ClientRegistry) (codeTtl tokenTtl : Nat)
    (pre post : List ServerEvent) (store : CodeStore) :
    storeAfterAll registry codeTtl tokenTtl store (pre ++ post)
      = storeAfterAll registry codeTtl tokenTtl
          (storeAfterAll registry codeTtl tokenTtl store pre) post := by
  induction pre generalizing store with
  | nil => rfl
  | cons e rest ih =>
    simp only [List.cons_append, storeAfterAll]
    exact ih _

theorem exchanges_append (registry : ClientRegistry) (codeTtl tokenTtl : Nat)
    (pre post : List ServerEvent) (store : CodeStore) :
    exchanges registry codeTtl tokenTtl store (pre ++ post)
      = exchanges registry codeTtl tokenTtl store pre ++
          exchanges registry codeTtl tokenTtl
            (storeAfterAll registry codeTtl tokenTtl store pre) post := by
  induction pre generalizing store with
  | nil => rfl
  | cons e rest ih =>
    cases e with
    | issue fresh clientId redirectUri userId scope now =>
      simp only [List.cons_append, exchanges, storeAfterAll]
      exact ih _
    | exchange req now entropy =>
      simp only [List.cons_append, exchanges, storeAfterAll, ServerEvent.storeAfter]
      exact congrArg _ (ih _)

theorem exchanges_before_success (registry : ClientRegistry) (codeTtl tokenTtl : Nat)
    (pre : List ServerEvent) (store : CodeStore) (code : JSString)
    (h : (storeAfterAll registry codeTtl tokenTtl store pre).isConsumed code = false) :
    ∀ p ∈ exchanges registry codeTtl tokenTtl store pre, p.1.code = code →
      p.2 = .error (replayError registry p.1) := by
  induction pre generalizing store with
  | nil => intro p hp; simp [exchanges] at hp
  | cons e rest ih =>
    cases e with
    | issue fresh clientId redirectUri userId scope now =>
      simp only [exchanges]
      exact ih _ h
    | exchange req now entropy =>
      intro p hp hcode
      simp only [exchanges, List.mem_cons] at hp
      rcases hp with hp | hp
      · subst hp
        have hcode2 : req.code = code := hcode
        rcases tokenEndpoint_dichotomy registry tokenTtl store req now entropy with h2 | h2
        · rw [h2]
        · exfalso
          have h3 := isConsumed_storeAfterAll registry codeTtl tokenTtl rest _ code
            (hcode2 ▸ h2)
          simp only [storeAfterAll, ServerEvent.storeAfter] at h
          rw [h] at h3
          exact absurd h3 (by decide)
      · exact ih _ h p hp hcode

theorem successesOf_of_isConsumed (registry : ClientRegistry) (codeTtl tokenTtl : Nat)
    (events : List ServerEvent) (store : CodeStore) (code : JSString)
    (h : store.isConsumed code = true) :
    successesOf code (exchanges registry codeTtl tokenTtl store events) = [] := by
  unfold successesOf
  rw [List.filter_eq_nil_iff]
  intro p hp
  by_cases hc : p.1.code = code
  · rw [exchanges_of_isConsumed registry codeTtl tokenTtl events store code h p hp hc]
    simp [isToken]
  · simp [hc]

theorem successesOf_length (registry : ClientRegistry) (codeTtl tokenTtl : Nat)
    (events : List ServerEvent) (store : CodeStore) (code : JSString) :
    (successesOf code (exchanges registry codeTtl tokenTtl store events)).length ≤ 1 := by
  induction events generalizing store with
  | nil => simp [exchanges, successesOf]
  | cons e rest ih =>
    cases e with
    | issue fresh clientId redirectUri userId scope now =>
      simp only [exchanges]
      exact ih _
    | exchange req now entropy =>
      simp only [exchanges]
      unfold successesOf
      rw [List.filter_cons]
      split_ifs with hp
      · simp only [Bool.and_eq_true, decide_eq_true_eq] at hp
        rcases tokenEndpoint_dichotomy registry tokenTtl store req now entropy with h2 | h2
        · rw [h2] at hp
          exact absurd hp.2 (by simp [isToken])
        · have h3 := successesOf_of_isConsumed registry codeTtl tokenTtl rest _ code
            (hp.1 ▸ h2)
          unfold successesOf at h3
          rw [h3]
          simp
      · exact ih _

/-- C7, amended. Take a Code Store, any sequence of its atomic operations
(codes issued, token exchanges) and a code.  At most one exchange of the code
succeeds.  If one succeeds, every other exchange of the same code in the
sequence, before it or after it, fails with the error of `replayError`:
`InvalidGrant` if it has the grant type "authorization_code" and a valid
client secret, otherwise `UnsupportedGrantType` or `InvalidClient`, the two
checks that come before the redemption. -/
theorem token_exchange_single_use (registry : ClientRegistry) (codeTtl tokenTtl : Nat)
    (store : CodeStore) (events : List ServerEvent) (code : JSString) :
    (successesOf code (exchanges registry codeTtl tokenTtl store events)).length ≤ 1
    ∧ (∀ (pre post : List ServerEvent) (req : TokenRequest) (now : Nat) (entropy : JSString),
        events = pre ++ .exchange req now entropy :: post → req.code = code →
        isToken (tokenEndpoint registry tokenTtl
          (storeAfterAll registry codeTtl tokenTtl store pre) req now entropy).1 = true →
        exchanges registry codeTtl tokenTtl store events
            = exchanges registry codeTtl tokenTtl store pre ++
                (req, (tokenEndpoint registry tokenTtl
                  (storeAfterAll registry codeTtl tokenTtl store pre) req now entropy).1) ::
                exchanges registry codeTtl tokenTtl
                  (storeAfterAll registry codeTtl tokenTtl store
                    (pre ++ [.exchange req now entropy])) post
        ∧ (∀ p ∈ exchanges registry codeTtl tokenTtl store pre, p.1.code = code →
            p.2 = .error (replayError registry p.1))
        ∧ (∀ p ∈ exchanges registry codeTtl tokenTtl
              (storeAfterAll registry codeTtl tokenTtl store
                (pre ++ [.exchange req now entropy])) post,
            p.1.code = code → p.2 = .error (replayError registry p.1)))
    ∧ (∀ req : TokenRequest,
        replayError registry req = .InvalidGrant
          ↔ (req.grantType = js "authorization_code"
              ∧ registry.verifySecret req.clientId req.clientSecret = true)) := by
  refine ⟨successesOf_length registry codeTtl tokenTtl events store code, ?_, ?_⟩
  · intro pre post req now entropy hev hcode htok
    have hstore : storeAfterAll registry codeTtl tokenTtl store
        (pre ++ [.exchange req now entropy])
          = (tokenEndpoint registry tokenTtl
              (storeAfterAll registry codeTtl tokenTtl store pre) req now entropy).2 := by
      rw [storeAfterAll_append]
      rfl
    have hnot : (storeAfterAll registry codeTtl tokenTtl store pre).isConsumed code = false := by
      cases hcons : (storeAfterAll registry codeTtl tokenTtl store pre).isConsumed code with
      | false => rfl
      | true =>
        rw [tokenEndpoint_of_isConsumed registry tokenTtl _ req now entropy
          (hcode ▸ hcons)] at htok
        exact absurd htok (by simp [isToken])
    have hafter : (tokenEndpoint registry tokenTtl
        (storeAfterAll registry codeTtl tokenTtl store pre) req now entropy).2.isConsumed code
          = true := by
      rcases tokenEndpoint_dichotomy registry tokenTtl
        (storeAfterAll registry codeTtl tokenTtl store pre) req now entropy with h | h
      · rw [h] at htok
        exact absurd htok (by simp [isToken])
      · exact hcode ▸ h
    refine ⟨?_, ?_, ?_⟩
    · rw [hev, exchanges_append, hstore]
      rfl
    · exact exchanges_before_success registry codeTtl tokenTtl pre store code hnot
    · rw [hstore]
      exact exchanges_of_isConsumed registry codeTtl tokenTtl post _ code hafter
  · intro req
    unfold replayError
    split_ifs with hg hv
    · simp only [reduceCtorEq, false_iff, not_and]
      intro h; exact absurd h hg
    · simp only [reduceCtorEq, false_iff, not_and]
      intro _
      simpa using hv
    · simp only [true_iff]
      exact ⟨not_not.mp hg, by simpa using hv⟩

/-- C7, amended, on the sample store: of three exchanges of the one code, the
second and the third after a success, at most one succeeds. -/
theorem token_exchange_single_use_witness :
    (successesOf (js "c0de") (exchanges sampleRegistry 600 3600 sampleStore
      [.exchange (tokenRequestOf sampleSDK.config (js "app1") (js "c0de") (js "s3cret")) 10
          (js "tok1"),
       .exchange (tokenRequestOf sampleSDK.config (js "app1") (js "c0de") (js "s3cret")) 11
          (js "tok2"),
       .exchange (tokenRequestOf sampleSDK.config (js "app1") (js "c0de") (js "wrong")) 12
          (js "tok3")])).length ≤ 1 :=
  (token_exchange_single_use sampleRegistry 600 3600 sampleStore
    [.exchange (tokenRequestOf sampleSDK.config (js "app1") (js "c0de") (js "s3cret")) 10
        (js "tok1"),
     .exchange (tokenRequestOf sampleSDK.config (js "app1") (js "c0de") (js "s3cret")) 11
        (js "tok2"),
     .exchange (tokenRequestOf sampleSDK.config (js "app1") (js "c0de") (js "wrong")) 12
        (js "tok3")] (js "c0de")).1

/-- C7 as stated fails on the sample store.  The first exchange of the code
succeeds; the second, with the same request, fails with `InvalidGrant`; but
the third, with the same code and a wrong client secret, fails with
`InvalidClient`, and the fourth, with the same code and another grant type,
with `UnsupportedGrantType`. -/
theorem token_exchange_replay_not_invalid_grant :
    (exchanges sampleRegistry 600 3600 sampleStore
      [.exchange (tokenRequestOf sampleSDK.config (js "app1") (js "c0de") (js "s3cret")) 10
          (js "tok1"),
       .exchange (tokenRequestOf sampleSDK.config (js "app1") (js "c0de") (js "s3cret")) 11
          (js "tok2"),
       .exchange (tokenRequestOf sampleSDK.config (js "app1") (js "c0de") (js "wrong")) 12
          (js "tok3"),
       .exchange { tokenRequestOf sampleSDK.config (js "app1") (js "c0de") (js "s3cret") with
                   grantType := js "password" } 13 (js "tok4")]).map (fun p => p.2)
      = [.ok { value := js "tok1", userId := js "u1", clientId := js "app1",
               scope := js "profile", issuedAt := 10, expiry := 3610 },
         .error .InvalidGrant, .error .InvalidClient, .error .UnsupportedGrantType] := by
  rfl

/-! ## Auth store -/

theorem login_normal (J : JSONImpl) (data : LoginData) (s : App) (t idText : JSString)
    (fields : List (JSString × JSVal)) (htok : data.token = .str t)
    (hu : data.user = .obj fields)
    (hid : ((JSVal.obj fields).getPropOpt (js "id")).toJSString = some idText) :
    login J data s
      = .normal
          { localStorage :=
              ((s.localStorage.setItem (js "token") t).setItem (js "user")
                (J.stringify data.user)).setItem (js "userId") idText,
            authState := { s.authState with
              user := data.user, token := data.token, isAuthenticated := true } } := by
  have hget : data.user.getProp (js "id")
      = some ((JSVal.obj fields).getPropOpt (js "id")) := by
    rw [hu]; rfl
  have htext : (JSVal.str t).toJSString = some t := rfl
  unfold login
  rw [htok, htext]
  simp only []
  rw [hget]
  simp only []
  rw [hid]

theorem agrees_login (J : JSONImpl) (data : LoginData) (s : App)
    (h : (StoreCall.login data).Admissible J) :
    Agrees J (login J data s).state := by
  obtain ⟨⟨t, ht, htok⟩, hobj, ⟨hne, hparse⟩, hid⟩ := h
  cases hu : data.user with
  | obj fields =>
    rw [hu] at hid
    obtain ⟨idText, hidText⟩ := Option.isSome_iff_exists.mp hid
    rw [login_normal J data s t idText fields htok hu hidText]
    have h1 : js "token" ≠ js "userId" := by decide
    have h2 : js "user" ≠ js "userId" := by decide
    have h3 : js "token" ≠ js "user" := by decide
    have htt : truthyOpt (some t) = true := by
      cases t with
      | nil => exact absurd rfl ht
      | cons u rest => rfl
    refine ⟨?_, ?_, ?_⟩
    · simp [Completion.state, Storage.getItem, Storage.setItem, h1, h3, htok, JSVal.ofItem]
    · simp [Completion.state, userItemOrNull, Storage.getItem, Storage.setItem, h2, hne,
        hparse]
    · simp [Completion.state, Storage.getItem, Storage.setItem, h1, h3, htt]
  | undefined => rw [hu] at hobj; exact absurd hobj (by simp [JSVal.isObject])
  | null => rw [hu] at hobj; exact absurd hobj (by simp [JSVal.isObject])
  | bool b => rw [hu] at hobj; exact absurd hobj (by simp [JSVal.isObject])
  | num negative magnitude => rw [hu] at hobj; exact absurd hobj (by simp [JSVal.isObject])
  | str v => rw [hu] at hobj; exact absurd hobj (by simp [JSVal.isObject])
  | arr items => rw [hu] at hobj; exact absurd hobj (by simp [JSVal.isObject])

theorem agrees_logout (J : JSONImpl) (hnull : J.parse (js "null") = some .null) (s : App) :
    Agrees J (logout s).state := by
  have h1 : js "token" ≠ js "userId" := by decide
  have h2 : js "user" ≠ js "userId" := by decide
  have h3 : js "token" ≠ js "user" := by decide
  refine ⟨?_, ?_, ?_⟩
  · simp [logout, Completion.state, Storage.getItem, Storage.removeItem, JSVal.ofItem]
  · simp [logout, Completion.state, userItemOrNull, Storage.getItem, Storage.removeItem, hnull]
  · simp [logout, Completion.state, Storage.getItem, Storage.removeItem, truthyOpt]

theorem agrees_init (J : JSONImpl) (st : Storage) (a0 : AuthState)
    (hinit : initAuthState J st = some a0) :
    Agrees J { localStorage := st, authState := a0 } := by
  unfold initAuthState at hinit
  cases hp : J.parse (userItemOrNull st) with
  | none => simp [hp] at hinit
  | some u =>
    simp only [hp, Option.some.injEq] at hinit
    subst hinit
    exact ⟨rfl, hp, rfl⟩

theorem agrees_runCalls (J : JSONImpl) (hnull : J.parse (js "null") = some .null)
    (calls : List StoreCall) (hcalls : ∀ c ∈ calls, c.Admissible J) (s : App)
    (hs : Agrees J s) : Agrees J (runCalls J calls s) := by
  induction calls generalizing s with
  | nil => exact hs
  | cons c rest ih =>
    have hc := hcalls c (List.mem_cons_self _ _)
    have hrest : ∀ c2 ∈ rest, c2.Admissible J := fun c2 h2 =>
      hcalls c2 (List.mem_cons_of_mem _ h2)
    simp only [runCalls]
    apply ih hrest
    cases c with
    | login data => exact agrees_login J data s hc
    | logout => exact agrees_logout J hnull s

/-- C9, amended. Start from the `authState` computed from `localStorage` and
make any finite sequence of `logout()` calls and of `login(data)` calls with
`data.token` a non-empty string and `data.user` a JSON-serialisable object
whose `id` has a string conversion, as every string and every number has.
Then the in-memory state agrees with what a reload would restore: `token` is
the stored 'token' item, `user` is `JSON.parse` of the stored 'user' item
(`null` when the item is absent or empty) and `isAuthenticated` is the
truthiness of the stored 'token' item.  After `logout`, from any state, the
items 'token', 'user' and 'userId' are absent, `user` and `token` are `null`, `isAuthenticated` and
`isAdmin` are `false`. -/
theorem store_agrees_with_reload (J : JSONImpl)
    (hnull : J.parse (js "null") = some .null)
    (st : Storage) (a0 : AuthState) (hinit : initAuthState J st = some a0)
    (calls : List StoreCall) (hcalls : ∀ c ∈ calls, c.Admissible J) :
    Agrees J (runCalls J calls { localStorage := st, authState := a0 })
    ∧ ((runCalls J calls { localStorage := st, authState := a0 }).localStorage.getItem
          (js "user") = none →
        (runCalls J calls { localStorage := st, authState := a0 }).authState.user = .null)
    ∧ (∀ item : JSString,
        (runCalls J calls { localStorage := st, authState := a0 }).localStorage.getItem
          (js "user") = some item → item ≠ [] →
        J.parse item
          = some (runCalls J calls { localStorage := st, authState := a0 }).authState.user)
    ∧ (∀ s : App,
        (logout s).state.localStorage.getItem (js "token") = none
        ∧ (logout s).state.localStorage.getItem (js "user") = none
        ∧ (logout s).state.localStorage.getItem (js "userId") = none
        ∧ (logout s).state.authState.user = .null
        ∧ (logout s).state.authState.token = .null
        ∧ (logout s).state.authState.isAuthenticated = false
        ∧ (logout s).state.authState.isAdmin = .bool false) := by
  have hag := agrees_runCalls J hnull calls hcalls _ (agrees_init J st a0 hinit)
  refine ⟨hag, ?_, ?_, ?_⟩
  · intro habs
    have h2 := hag.2.1
    unfold userItemOrNull at h2
    rw [habs, hnull] at h2
    exact (Option.some.inj h2).symm
  · intro item hitem hne
    have h2 := hag.2.1
    unfold userItemOrNull at h2
    rw [hitem] at h2
    have ht : item.truthy = true := by
      cases item with
      | nil => exact absurd rfl hne
      | cons u rest => rfl
    simpa [ht] using h2
  intro s
  have h1 : js "token" ≠ js "userId" := by decide
  have h2 : js "user" ≠ js "userId" := by decide
  have h3 : js "token" ≠ js "user" := by decide
  refine ⟨?_, ?_, ?_, rfl, rfl, rfl, rfl⟩ <;>
    simp [logout, Completion.state, Storage.getItem, Storage.removeItem, h1, h2, h3]

/-- C9, amended, on a browser that never signed in: sign in, sign out, sign
in again. -/
theorem store_agrees_with_reload_witness :
    Agrees sampleJSON
      (runCalls sampleJSON
        [.login { token := .str (js "t"), user := sampleUser }, .logout,
         .login { token := .str (js "u"), user := sampleUser }]
        { localStorage := fun _ => none, authState := freshApp.authState }) :=
  (store_agrees_with_reload sampleJSON rfl (fun _ => none) freshApp.authState rfl
    [.login { token := .str (js "t"), user := sampleUser }, .logout,
     .login { token := .str (js "u"), user := sampleUser }]
    (by
      intro c hc
      simp only [List.mem_cons, List.mem_singleton, List.not_mem_nil, or_false] at hc
      rcases hc with rfl | rfl | rfl
      · exact ⟨⟨js "t", by decide, rfl⟩, rfl, ⟨by decide, rfl⟩, rfl⟩
      · trivial
      · exact ⟨⟨js "u", by decide, rfl⟩, rfl, ⟨by decide, rfl⟩, rfl⟩)).1

/-- C9 as stated fails for the empty string as `data.token`: after `login`
with the token '' and a user of id 7, on a browser that never signed in,
`isAuthenticated` is `true` while the stored 'token' item, the empty string,
is falsy, so a reload would restore `false`.  It also fails before any call
when the stored 'user' item is the empty string: `user` is `null`, as for an
absent item, while `JSON.parse` of the item throws.  And it fails for a user
whose `id` is an object with an own property named 'toString': `setItem`
throws on the 'userId' item after the items 'token' and 'user' are stored, so
the in-memory state stays signed out while a reload would restore the token
't'. -/
theorem store_empty_token_disagrees :
    initAuthState sampleJSON (fun _ => none) = some freshApp.authState
    ∧ sampleUser.isObject = true
    ∧ sampleUser.getProp (js "id") = some (.num false 7)
    ∧ Serialisable sampleJSON sampleUser
    ∧ (runCalls sampleJSON [.login { token := .str (js ""), user := sampleUser }]
        { localStorage := fun _ => none, authState := freshApp.authState }
        ).authState.isAuthenticated = true
    ∧ truthyOpt ((runCalls sampleJSON [.login { token := .str (js ""), user := sampleUser }]
        { localStorage := fun _ => none, authState := freshApp.authState }
        ).localStorage.getItem (js "token")) = false
    ∧ ¬ Agrees sampleJSON
        (runCalls sampleJSON [.login { token := .str (js ""), user := sampleUser }]
          { localStorage := fun _ => none, authState := freshApp.authState })
    ∧ initAuthState sampleJSON (fun k => if k = js "user" then some (js "") else none)
        = some freshApp.authState
    ∧ sampleJSON.parse (js "") = none
    ∧ objectIdUser.isObject = true
    ∧ objectIdUser.getProp (js "id") = some (.obj [(js "toString", .null)])
    ∧ Serialisable sampleJSON objectIdUser
    ∧ (runCalls sampleJSON [.login { token := .str (js "t"), user := objectIdUser }]
        { localStorage := fun _ => none, authState := freshApp.authState }
        ).authState.isAuthenticated = false
    ∧ (runCalls sampleJSON [.login { token := .str (js "t"), user := objectIdUser }]
        { localStorage := fun _ => none, authState := freshApp.authState }
        ).localStorage.getItem (js "token") = some (js "t")
    ∧ ¬ Agrees sampleJSON
        (runCalls sampleJSON [.login { token := .str (js "t"), user := objectIdUser }]
          { localStorage := fun _ => none, authState := freshApp.authState }) := by
  refine ⟨rfl, rfl, rfl, ⟨by decide, rfl⟩, rfl, by decide, ?_, rfl, rfl, rfl, rfl,
    ⟨by decide, rfl⟩, rfl, by decide, ?_⟩
  · intro h
    have h3 := h.2.2
    revert h3
    decide
  · intro h
    have h3 := h.2.2
    revert h3
    decide

/-! ## The embedding on concrete inputs -/

/-- A string literal is its code units; the route table has seventeen
targets. -/
theorem js_login_units :
    js "login" = [108, 111, 103, 105, 110] ∧ routeTable.length = 17 := by
  decide

/-- String conversion of an array joins its items with commas, `null` giving
the empty string. -/
theorem toJSString_array :
    (JSVal.arr [.num false 1, .null, .str (js "a"),
        .arr [.num true 2, .num false 3]]).toJSString
      = some (js "1,,a,-2,3") := by
  decide

/-- String conversion of numbers: the largest one, negative zero, a negative
one; and of objects, which throws on an own property named 'toString'. -/
theorem toJSString_numbers :
    (JSVal.num false 9007199254740991).toJSString = some (js "9007199254740991")
    ∧ (JSVal.num true 0).toJSString = some (js "0")
    ∧ (JSVal.num true 1234567890123).toJSString = some (js "-1234567890123")
    ∧ (JSVal.obj [(js "a", .num false 1)]).toJSString = some (js "[object Object]")
    ∧ (JSVal.obj [(js "toString", .null)]).toJSString = none
    ∧ (JSVal.arr [.obj [(js "toString", .null)]]).toJSString = none := by
  decide

/-- Signing in stores the user id as a string. -/
theorem login_stores_userId :
    (login sampleJSON { token := .str (js "t"), user := sampleUser } freshApp
        ).state.localStorage.getItem (js "userId") = some (js "7") := by
  decide

/-- The serializer on a space, reserved characters, a letter outside ASCII, a
surrogate pair and an unpaired surrogate. -/
theorem toString_example :
    URLSearchParams.toString (URLSearchParams.ofRecord
        [(js "a b", js "é&=+%x"), (js "k", [55357, 56832]), (js "z", [55357])])
      = js "a+b=%C3%A9%26%3D%2B%25x&k=%F0%9F%98%80&z=%EF%BF%BD" := by
  decide

/-- The parser on a leading question mark, an empty sequence, a name without
value, an empty name and percent signs that encode nothing. -/
theorem ofString_example :
    (URLSearchParams.ofString
        (js "?a+b=%C3%A9%26%3D%2B%25x&&k=%F0%9F%98%80&z=%EF%BF%BD&q&=1&%zz=%4")).entries
      = [(js "a b", js "é&=+%x"), (js "k", [55357, 56832]), (js "z", [65533]),
         (js "q", js ""), (js "", js "1"), (js "%zz", js "%4")] := by
  decide

/-- The decoder on truncated and out-of-range sequences. -/
theorem utf8Decode_example :
    utf8Decode [224, 128, 65, 244, 144, 194] = [65533, 65533, 65, 65533, 65533, 65533] := by
  decide

set_option maxRecDepth 100000 in
/-- The URL `login` navigates to after `init` with a client id, on a
development host. -/
theorem login_example :
    ((CodeManSSO.load sampleLocation).init { clientId := some (some (js "app 1")) }
        sampleWindow).1.login (some (js "s&t")) sampleWindow
      = { location :=
            { origin := js "http://localhost:3000",
              href := js ("http://localhost:5173/oauth/authorize?client_id=app+1" ++
                "&redirect_uri=http%3A%2F%2Flocalhost%3A3000%2Fcb&response_type=code" ++
                "&state=s%26t") },
          console := [] } := by
  decide

/-- The code of a redirect response, read from the query. -/
theorem getAuthCodeFromUrl_example :
    CodeManSSO.getAuthCodeFromUrl (js "?code=abc&state=1") = some (js "abc") := by
  decide

end CodeMan
